import Mathlib

/-!
Verification development for the `arduino-genmakefile` generator.

The Python program is embedded shallowly:

* Filesystem paths are lists of components (`Comps`), always rooted at `/`.
* The filesystem is a finite symbolic structure (`FileSys`): a symlink
  table, a set of existing directories and a map from canonical file
  locations to their contents (raw text lines or a parsed YAML mapping).
  Tables are keyed by paths whose directory components are canonical.
* `os.path.realpath` is modelled by `realpath`, a fuelled left-to-right
  component resolver that splices symlink targets and collapses `.` / `..`
  exactly as the CPython implementation does.
* Python strings are Lean `String`s; the bespoke helpers (`strHas`,
  `strReplace`, ...) mirror `in`, `str.replace`, `str.startswith` and
  friends on explicit character lists so that all definitions evaluate
  inside the kernel.
* Exceptions are an `Err` inductive carried through `Except`; each
  constructor corresponds to one `raise` site of the source.
-/

namespace AGen

deriving instance DecidableEq for Except

/-- Absolute path components, root-relative: `/a/b` is `["a", "b"]`. -/
abbrev Comps := List String

/-- Render components the way `os.path` renders an absolute path. -/
def compsToString (cs : Comps) : String :=
  "/" ++ String.intercalate "/" cs

/-- One step of lexical normalisation (`os.path.normpath` on absolute
paths): `.` is dropped, `..` pops the already-normalised prefix. -/
def normAux (acc : Comps) : Comps → Comps
  | [] => acc
  | c :: rest =>
    if c = "." then normAux acc rest
    else if c = ".." then normAux acc.dropLast rest
    else normAux (acc ++ [c]) rest

/-- Lexical normalisation of an absolute component path. -/
def normComps (cs : Comps) : Comps := normAux [] cs

/-- Length of the longest common prefix of two component lists. -/
def sharedLen : Comps → Comps → Nat
  | a :: as', b :: bs => if a = b then sharedLen as' bs + 1 else 0
  | _, _ => 0

/-- `os.path.relpath target base` for absolute arguments: purely lexical,
both sides normalised, `..` steps up to the common ancestor. The empty
result models Python's `"."`. -/
def relpathComps (target base : Comps) : Comps :=
  let t := normComps target
  let b := normComps base
  let k := sharedLen t b
  List.replicate (b.length - k) ".." ++ t.drop k

/-- A raw path string as classified by the Python code: `~/…`
(`startswith("~/")`), absolute (`os.path.isabs`), or relative. -/
inductive RawPath
  | abs (cs : Comps)
  | rel (cs : Comps)
  | user (cs : Comps)
deriving DecidableEq, Inhabited

/-- Re-classify the string produced by `os.path.relpath` the way
`Path.__init__` would: a result whose text begins with `"~/"` (first
component exactly `"~"`, followed by more) takes the user branch. -/
def rawOfRelComps (cs : Comps) : RawPath :=
  match cs with
  | "~" :: c :: rest => RawPath.user (c :: rest)
  | _ => RawPath.rel cs

/-- `str.startswith`, on explicit characters (kernel-evaluable). -/
def strStartsWith (s pre : String) : Bool :=
  pre.toList.isPrefixOf s.toList

/-- `str.endswith`. -/
def strEndsWith (s suf : String) : Bool :=
  suf.toList.isSuffixOf s.toList

/-- Substring search over characters. -/
def hasSubChars (pat : List Char) : List Char → Bool
  | [] => pat.isEmpty
  | c :: rest => pat.isPrefixOf (c :: rest) || hasSubChars pat rest

/-- Python's `pat in line`. -/
def strHas (line pat : String) : Bool :=
  hasSubChars pat.toList line.toList

/-- Fuelled character-level replace-all (`str.replace`), non-overlapping,
left to right; the fuel is the input length, which always suffices. -/
def replaceFuel : Nat → List Char → List Char → List Char → List Char
  | 0, s, _, _ => s
  | _ + 1, [], _, _ => []
  | f + 1, c :: rest, pat, rep =>
    if pat ≠ [] ∧ pat.isPrefixOf (c :: rest) then
      rep ++ replaceFuel f ((c :: rest).drop pat.length) pat rep
    else c :: replaceFuel f rest pat rep

/-- `str.replace(pat, rep)`. -/
def strReplace (s pat rep : String) : String :=
  String.mk (replaceFuel s.toList.length s.toList pat.toList rep.toList)

/-- `str.replace(pat, rep, 1)`: first occurrence only. -/
def replaceFirstChars : List Char → List Char → List Char → List Char
  | [], _, _ => []
  | c :: rest, pat, rep =>
    if pat.isPrefixOf (c :: rest) then rep ++ ((c :: rest).drop pat.length)
    else c :: replaceFirstChars rest pat rep

/-- `str.replace(pat, rep, 1)` on `String`. -/
def strReplaceFirst (s pat rep : String) : String :=
  String.mk (replaceFirstChars s.toList pat.toList rep.toList)

/-- Python `s[n:]`. -/
def strDrop (s : String) (n : Nat) : String :=
  String.mk (s.toList.drop n)

/-- `sep.join(items)`. -/
def joinSep (sep : String) : List String → String
  | [] => ""
  | [x] => x
  | x :: y :: rest => x ++ sep ++ joinSep sep (y :: rest)

/-- Index (in characters) of the dot starting the `os.path.splitext`
extension: the last dot preceded by some non-dot character. -/
def lastExtDot : List Char → Nat → Bool → Option Nat → Option Nat
  | [], _, _, best => best
  | c :: rest, i, seen, best =>
    if c = '.' then lastExtDot rest (i + 1) seen (if seen then some i else best)
    else lastExtDot rest (i + 1) true best

/-- `os.path.splitext(name)[-1]` for a single path component (also the
`pathlib` suffix used by `with_suffix`). -/
def extOfName (name : String) : String :=
  match lastExtDot name.toList 0 false none with
  | none => ""
  | some i => String.mk (name.toList.drop i)

/-- Replace the `splitext` extension of one component (`Path.with_suffix`). -/
def withSuffixName (name : String) (ext : String) : String :=
  match lastExtDot name.toList 0 false none with
  | none => name ++ ext
  | some i => String.mk (name.toList.take i) ++ ext

/-- Recognised configuration keys, in document order. Any other key is
`unknown` and triggers the warning branch of `Config.__init__`. -/
inductive CEntry
  | fqbn (v : String)
  | cflags (vs : List String)
  | debugCommand (v : String)
  | baudrate (v : String)
  | libs (vs : List RawPath)
  | qmakeDirs (vs : List RawPath)
  | qmakeExcludeDirs (vs : List RawPath)
  | configs (vs : List RawPath)
  | unknown (key : String)
deriving DecidableEq, Inhabited

/-- A parsed YAML mapping (`yaml.safe_load` result), keys in order. -/
structure ConfigData where
  entries : List CEntry
deriving DecidableEq, Inhabited

/-- `data.get("configs", [])`. -/
def ConfigData.configsList (d : ConfigData) : List RawPath :=
  (d.entries.findSome? (fun e =>
    match e with
    | CEntry.configs vs => some vs
    | _ => none)).getD []

/-- Contents of a regular file: raw text lines (as `readlines`, each line
keeping its trailing newline), or a parsed YAML mapping. -/
inductive FileData
  | text (lines : List String)
  | yaml (d : ConfigData)
deriving DecidableEq, Inhabited

/-- The symbolic filesystem. `links` maps a path (canonical up to its own
last component) to its absolute target; `dirs` and `files` enumerate the
existing directories and regular files at canonical locations. -/
structure FileSys where
  links : List (Comps × Comps)
  dirs : List Comps
  files : List (Comps × FileData)
deriving DecidableEq, Inhabited

/-- Symlink table lookup. -/
def FileSys.linkAt (fs : FileSys) (p : Comps) : Option Comps :=
  (fs.links.find? (fun e => e.1 == p)).map (fun e => e.2)

/-- File table lookup (canonical key). -/
def FileSys.fileAt (fs : FileSys) (p : Comps) : Option FileData :=
  (fs.files.find? (fun e => e.1 == p)).map (fun e => e.2)

/-- `readlines` content of a canonical location, if it is a text file. -/
def fileLines (fs : FileSys) (p : Comps) : Option (List String) :=
  match fs.fileAt p with
  | some (FileData.text ls) => some ls
  | _ => none

/-- `yaml.safe_load` of a canonical location, if it is a config file. -/
def yamlAt (fs : FileSys) (p : Comps) : Option ConfigData :=
  match fs.fileAt p with
  | some (FileData.yaml d) => some d
  | _ => none

/-- Delete a regular file (`os.remove`). -/
def FileSys.removeFile (fs : FileSys) (p : Comps) : FileSys :=
  { fs with files := fs.files.filter (fun e => !(e.1 == p)) }

/-- Create-or-overwrite a text file with the given lines. -/
def FileSys.setFile (fs : FileSys) (p : Comps) (ls : List String) : FileSys :=
  { fs with files := (fs.removeFile p).files ++ [(p, FileData.text ls)] }

/-- Ambient process data: home directory, working directory, directory of
the script itself (`os.path.dirname(__file__)`, taken absolute), the
command line echoed into headers, the harvested preprocessor defines
(result of the opaque external toolchain invocation `get_defines`), and
resolver fuel. -/
structure Env where
  home : Comps
  cwd : Comps
  script_dir : Comps
  cmdline : String
  build_defines : List String
  fuel : Nat
deriving Inhabited

/-- `os.path.realpath`, fuelled: resolve components left to right, follow
symlinks by splicing their (absolute) target, collapse `.` and `..`
against the already-resolved prefix. -/
def realpathAux (fs : FileSys) : Nat → Comps → Comps → Comps
  | 0, acc, rest => acc ++ rest
  | f + 1, acc, rest =>
    match rest with
    | [] => acc
    | c :: rest' =>
      if c = "." then realpathAux fs f acc rest'
      else if c = ".." then realpathAux fs f acc.dropLast rest'
      else
        match fs.linkAt (acc ++ [c]) with
        | some tgt => realpathAux fs f [] (tgt ++ rest')
        | none => realpathAux fs f (acc ++ [c]) rest'

/-- `os.path.realpath` on an absolute component path. -/
def realpath (fs : FileSys) (fuel : Nat) (cs : Comps) : Comps :=
  realpathAux fs fuel [] cs

/-- `os.path.isfile` (follows symlinks). -/
def isfileP (ev : Env) (fs : FileSys) (p : Comps) : Bool :=
  (fs.fileAt (realpath fs ev.fuel p)).isSome

/-- `os.path.isdir` (follows symlinks). -/
def isdirP (ev : Env) (fs : FileSys) (p : Comps) : Bool :=
  fs.dirs.contains (realpath fs ev.fuel p)

/-- `os.path.exists` (follows symlinks). -/
def existsP (ev : Env) (fs : FileSys) (p : Comps) : Bool :=
  isfileP ev fs p || isdirP ev fs p

/-- Error taxonomy. Each constructor corresponds to one raise site of the
source (`ValueError`s in `Path`, the `Exception`s raised through
`Error.exit_on_error`, and the built-in `OSError` / `FileNotFoundError` /
`FileExistsError` kinds). -/
inductive Err
  | valueError (msg : String)
  | unsafeNotAFile (p : Comps)
  | unsafeNotGenerated (p : Comps)
  | circular (current : Comps) (stack : List Comps)
  | configIO (p : Comps)
  | missingFqbn
  | requiredMissing (p : Comps)
  | requiredWrongType (p : Comps)
  | ioError (p : Comps)
  | badMakefileName
  | badQmakeName
  | fuelExhausted
deriving DecidableEq, Inhabited

/-- Destructive filesystem actions performed by the generator, in order. -/
inductive Effect
  | remove (p : Comps)
  | write (p : Comps)
  | chmod (p : Comps)
deriving DecidableEq, Inhabited

/-- `Path.Type`. -/
inductive PType
  | Relative
  | Absolute
  | User
deriving DecidableEq, Inhabited

/-- The `Path` value object: domain tag (`_type` in the source), the base
directory it was resolved against (absent for absolute paths, which never
set `self.basedir`), and the canonical (`os.path.realpath`-resolved)
location `self.path`. -/
structure Path where
  ptype : PType
  basedir : Option Comps
  path : Comps
deriving DecidableEq, Inhabited

/-- `Path.check_basedir_valid`: the base must be non-`None`, absolute, and
if it exists it must be a directory. -/
def check_basedir_valid (ev : Env) (fs : FileSys) : Option RawPath → Except Err Unit
  | none => Except.error (Err.valueError "Base dir is None")
  | some (RawPath.abs b) =>
    if existsP ev fs b && !(isdirP ev fs b) then
      Except.error (Err.valueError "Base dir is not valid (exists and is not a directory)")
    else Except.ok ()
  | some _ => Except.error (Err.valueError "Base dir is not valid (should be absolute)")

/-- `Path.__init__`: classify the raw string, validate the base for the
relative branch, and store the realpath-canonical location. -/
def Path.make (ev : Env) (fs : FileSys) (raw : RawPath) (basedir : Option RawPath) :
    Except Err Path :=
  match raw with
  | RawPath.user cs =>
    Except.ok ⟨PType.User, some ev.home, realpath fs ev.fuel (ev.home ++ cs)⟩
  | RawPath.abs cs =>
    Except.ok ⟨PType.Absolute, none, realpath fs ev.fuel cs⟩
  | RawPath.rel cs =>
    match check_basedir_valid ev fs basedir with
    | Except.error e => Except.error e
    | Except.ok _ =>
      match basedir with
      | some (RawPath.abs b) =>
        Except.ok ⟨PType.Relative, some b, realpath fs ev.fuel (b ++ cs)⟩
      | _ => Except.error (Err.valueError "unreachable: validity check passed")

/-- `Path.to_relative`: re-express the canonical location relative to a
new base (`os.path.relpath` then `Path.__init__`). -/
def Path.to_relative (ev : Env) (fs : FileSys) (p : Path) (basedir : RawPath) :
    Except Err Path :=
  match check_basedir_valid ev fs (some basedir) with
  | Except.error e => Except.error e
  | Except.ok _ =>
    match basedir with
    | RawPath.abs b => Path.make ev fs (rawOfRelComps (relpathComps p.path b)) (some basedir)
    | _ => Except.error (Err.valueError "unreachable: validity check passed")

/-- `Path.rel_path`: a programming error on absolute paths, otherwise the
canonical location expressed relative to the stored base directory. -/
def Path.rel_path (p : Path) : Except Err Comps :=
  match p.ptype with
  | PType.Absolute => Except.error (Err.valueError "Calling rel_path() on an absolute path")
  | _ => Except.ok (relpathComps p.path (p.basedir.getD []))

/-- Render a relative-components result the way `os.path.relpath` renders
it as text (`"."` for the empty result). -/
def relCompsToString (cs : Comps) : String :=
  match cs with
  | [] => "."
  | _ => String.intercalate "/" cs

/-- `Path.parent_dir` (`os.path.dirname` of the canonical location; domain
and base are kept by the `deepcopy`). -/
def Path.parent_dir (p : Path) : Path :=
  { p with path := p.path.dropLast }

/-- `Path.with_extension` (`pathlib.Path.with_suffix`). -/
def Path.with_extension (p : Path) (ext : String) : Path :=
  { p with path := p.path.dropLast ++ [withSuffixName (p.path.getLast?.getD "") ext] }

/-- `Path.basename`. -/
def Path.basename (p : Path) : String :=
  p.path.getLast?.getD ""

/-- `Path.isuser`. -/
def Path.isuser (p : Path) : Bool := p.ptype == PType.User

/-- `Path.isabs`. -/
def Path.isabs (p : Path) : Bool := p.ptype == PType.Absolute

/-- `Path.isrel`. -/
def Path.isrel (p : Path) : Bool := p.ptype == PType.Relative

/-- `str(path_object)`: the `Path` class defines no `__str__`/`__repr__`,
so Python falls back to the default object representation
`"<__main__.Path object at 0x…>"`. Only its shape matters to the program
(it is compared with `startswith` against absolute path strings, which
begin with `"/"`); the address digits are irrelevant and omitted. -/
def pathStr (_p : Path) : String := "<__main__.Path object>"

/-- `Constants.generated_by_us_string()`. -/
def generated_marker : String := "# Generated by arduino-genmakefile\n"

/-- `Constants.header_strings()`. -/
def header_strings (ev : Env) : List String :=
  [generated_marker, "#\n", "# Command line:\n", "# " ++ ev.cmdline ++ "\n", "\n"]

/-- `Path.isemptyfile`: a regular file of size zero (no lines). -/
def Path.isemptyfile (ev : Env) (fs : FileSys) (p : Path) : Bool :=
  isfileP ev fs p.path && ((fileLines fs (realpath fs ev.fuel p.path)).getD []).isEmpty

/-- `Path.generated_by_us`: some line of the file starts with the marker
string (the marker ends in a newline, so for well-formed `readlines`
output this means some line is exactly the marker). -/
def Path.generated_by_us (ev : Env) (fs : FileSys) (p : Path) : Bool :=
  ((fileLines fs (realpath fs ev.fuel p.path)).getD []).any
    (fun l => strStartsWith l generated_marker)

/-- `Path.safely_remove_or_exit`: no-op when absent; refuse non-files and
non-empty files not generated by us; otherwise delete. -/
def Path.safely_remove_or_exit (ev : Env) (fs : FileSys) (p : Path) :
    Except Err (List Effect × FileSys) :=
  if !(existsP ev fs p.path) then Except.ok ([], fs)
  else if !(isfileP ev fs p.path) then Except.error (Err.unsafeNotAFile p.path)
  else if !(Path.generated_by_us ev fs p) && !(Path.isemptyfile ev fs p) then
    Except.error (Err.unsafeNotGenerated p.path)
  else
    Except.ok ([Effect.remove p.path], fs.removeFile (realpath fs ev.fuel p.path))

/-- `Path.read_lines` (an `OSError` when the location is not a readable
text file). -/
def read_linesE (ev : Env) (fs : FileSys) (p : Comps) : Except Err (List String) :=
  match fileLines fs (realpath fs ev.fuel p) with
  | some ls => Except.ok ls
  | none => Except.error (Err.ioError p)

/-- `Path.write_lines`: append to the file (creating it when absent). -/
def writeLines (ev : Env) (fs : FileSys) (p : Comps) (ls : List String) : FileSys :=
  let rp := realpath fs ev.fuel p
  match fileLines fs rp with
  | some old => fs.setFile rp (old ++ ls)
  | none => fs.setFile rp ls

/-- `Path.check_files_exist`. -/
def check_files_exist (ev : Env) (fs : FileSys) : List Path → Except Err Unit
  | [] => Except.ok ()
  | p :: rest =>
    if !(existsP ev fs p.path) then Except.error (Err.requiredMissing p.path)
    else if !(isfileP ev fs p.path) then Except.error (Err.requiredWrongType p.path)
    else check_files_exist ev fs rest

/-- `Path.check_dirs_exist`. -/
def check_dirs_exist (ev : Env) (fs : FileSys) : List Path → Except Err Unit
  | [] => Except.ok ()
  | p :: rest =>
    if !(existsP ev fs p.path) then Except.error (Err.requiredMissing p.path)
    else if !(isdirP ev fs p.path) then Except.error (Err.requiredWrongType p.path)
    else check_dirs_exist ev fs rest

/-- `Path.list_from_key`: resolve a list of raw path strings against the
declaring configuration file's directory. -/
def list_from_key (ev : Env) (fs : FileSys) (config_dir : Comps) :
    List RawPath → Except Err (List Path)
  | [] => Except.ok []
  | r :: rest =>
    match Path.make ev fs r (some (RawPath.abs config_dir)) with
    | Except.error e => Except.error e
    | Except.ok p =>
      match list_from_key ev fs config_dir rest with
      | Except.error e => Except.error e
      | Except.ok ps => Except.ok (p :: ps)

/-- The composer's traversal state: `Config.extra_config_stack` (a class
attribute in the source, i.e. process-global and mutated in place) plus a
trace of every `yaml.safe_load` call, in order, used to observe how often
each file's content is parsed. -/
structure CState where
  stack : List Path
  parsed : List Comps
deriving DecidableEq, Inhabited

/-- Inner loop of `Config.get_extra_configs`: resolve each entry of the
`configs` list against the declaring file's directory and recurse
(through `recur`) immediately, collecting `config_path` followed by its
expansion. Exceptions propagate with the state as mutated so far — in
particular without the pops that the aborted frames never ran. -/
def getExtraList (ev : Env) (fs : FileSys)
    (recur : CState → Path → Except (Err × CState) (List Path × CState))
    (parent : Path) :
    CState → List RawPath → Except (Err × CState) (List Path × CState)
  | st, [] => Except.ok ([], st)
  | st, raw :: rest =>
    match Path.make ev fs raw (some (RawPath.abs parent.parent_dir.path)) with
    | Except.error e => Except.error (e, st)
    | Except.ok cp =>
      match recur st cp with
      | Except.error es => Except.error es
      | Except.ok (sub, st') =>
        match getExtraList ev fs recur parent st' rest with
        | Except.error es => Except.error es
        | Except.ok (sub', st'') => Except.ok (cp :: (sub ++ sub'), st'')

/-- One frame of `Config.get_extra_configs`: detect re-entry into the
in-progress stack (membership is `Path.__eq__`, i.e. canonical-location
equality), push, open and parse the file, expand its `configs` list, pop. -/
def getExtraStep (ev : Env) (fs : FileSys)
    (recur : CState → Path → Except (Err × CState) (List Path × CState))
    (st : CState) (path : Path) : Except (Err × CState) (List Path × CState) :=
  if st.stack.any (fun q => q.path == path.path) then
    Except.error (Err.circular path.path (st.stack.map (fun q => q.path)), st)
  else
    let st1 : CState := { st with stack := st.stack ++ [path] }
    match yamlAt fs path.path with
    | none => Except.error (Err.configIO path.path, st1)
    | some data =>
      let st2 : CState := { st1 with parsed := st1.parsed ++ [path.path] }
      match getExtraList ev fs recur path st2 data.configsList with
      | Except.error es => Except.error es
      | Except.ok (ret, st3) =>
        Except.ok (ret, { st3 with stack := st3.stack.dropLast })

/-- `Config.get_extra_configs`, fuelled by recursion depth (the Python
recursion is unbounded; every claim is settled at sufficient fuel). -/
def getExtra (ev : Env) (fs : FileSys) : Nat → CState → Path →
    Except (Err × CState) (List Path × CState)
  | 0, st, _ => Except.error (Err.fuelExhausted, st)
  | f + 1, st, path => getExtraStep ev fs (getExtra ev fs f) st path

/-- The flattening loop of `Config.__init__` (lines 215-218): each main
path followed immediately by its fully expanded include chain. -/
def flattenPaths (ev : Env) (fs : FileSys) (fuel : Nat) :
    CState → List Path → Except (Err × CState) (List Path × CState)
  | st, [] => Except.ok ([], st)
  | st, p :: rest =>
    match getExtra ev fs fuel st p with
    | Except.error es => Except.error es
    | Except.ok (sub, st') =>
      match flattenPaths ev fs fuel st' rest with
      | Except.error es => Except.error es
      | Except.ok (tail, st'') => Except.ok (p :: (sub ++ tail), st'')

/-- The effective configuration being built by `Config.__init__`, plus
the accumulated unknown-key warnings (the source prints them; here they
are collected so that "non-fatal warning" is observable). -/
structure Config where
  main_paths : List Path
  paths : List Path
  fqbn : Option String
  cflags : List String
  debug_command : String
  baudrate : String
  lib_paths : List Path
  qmake_dirs : List Path
  qmake_exclude_dirs : List Path
  warnings : List String
deriving DecidableEq, Inhabited

/-- One key of the merge loop of `Config.__init__` (lines 237-256). -/
def mergeEntry (ev : Env) (fs : FileSys) (parent : Comps) (c : Config) :
    CEntry → Except Err Config
  | CEntry.fqbn v => Except.ok { c with fqbn := some v }
  | CEntry.cflags vs => Except.ok { c with cflags := c.cflags ++ vs }
  | CEntry.debugCommand v => Except.ok { c with debug_command := v }
  | CEntry.baudrate v => Except.ok { c with baudrate := v }
  | CEntry.libs vs =>
    match list_from_key ev fs parent vs with
    | Except.error e => Except.error e
    | Except.ok ps => Except.ok { c with lib_paths := c.lib_paths ++ ps }
  | CEntry.qmakeDirs vs =>
    match list_from_key ev fs parent vs with
    | Except.error e => Except.error e
    | Except.ok ps => Except.ok { c with qmake_dirs := c.qmake_dirs ++ ps }
  | CEntry.qmakeExcludeDirs vs =>
    match list_from_key ev fs parent vs with
    | Except.error e => Except.error e
    | Except.ok ps => Except.ok { c with qmake_exclude_dirs := c.qmake_exclude_dirs ++ ps }
  | CEntry.configs _ => Except.ok c
  | CEntry.unknown k => Except.ok { c with warnings := c.warnings ++ [k] }

/-- All keys of one configuration document, in order. -/
def mergeDoc (ev : Env) (fs : FileSys) (parent : Comps) :
    Config → List CEntry → Except Err Config
  | c, [] => Except.ok c
  | c, e :: rest =>
    match mergeEntry ev fs parent c e with
    | Except.error err => Except.error err
    | Except.ok c' => mergeDoc ev fs parent c' rest

/-- The merge loop over the flattened layer sequence (lines 228-256),
re-opening and re-parsing each file. -/
def mergeAll (ev : Env) (fs : FileSys) :
    CState → Config → List Path → Except (Err × CState) (Config × CState)
  | st, c, [] => Except.ok (c, st)
  | st, c, p :: rest =>
    match yamlAt fs p.path with
    | none => Except.error (Err.configIO p.path, st)
    | some d =>
      let st' : CState := { st with parsed := st.parsed ++ [p.path] }
      match mergeDoc ev fs p.parent_dir.path c d.entries with
      | Except.error e => Except.error (e, st')
      | Except.ok c' => mergeAll ev fs st' c' rest

/-- The field defaults set before the merge loop (lines 220-226). -/
def initConfig (mains flat : List Path) : Config :=
  ⟨mains, flat, none, [], "cat $$SERIALPORT", "115200", [], [], [], []⟩

/-- `Config.__init__`: flatten the include graph, merge every layer in
order, then require `fqbn`. The traversal state is threaded explicitly
(it is a class attribute in the source, so the caller's state persists). -/
def Config.make (ev : Env) (fs : FileSys) (fuel : Nat) (st : CState)
    (mainPaths : List Path) : Except (Err × CState) (Config × CState) :=
  match flattenPaths ev fs fuel st mainPaths with
  | Except.error es => Except.error es
  | Except.ok (flat, st1) =>
    match mergeAll ev fs st1 (initConfig mainPaths flat) flat with
    | Except.error es => Except.error es
    | Except.ok (c, st2) =>
      match c.fqbn with
      | none => Except.error (Err.missingFqbn, st2)
      | some _ => Except.ok (c, st2)

/-- The `Makefile` object: `__init__` re-expresses the sketch path
relative to the output's own directory. -/
structure MakefileG where
  path : Path
  config : Config
  sketch_path : Path
  template_path : Path
deriving DecidableEq, Inhabited

/-- `Makefile.__init__`. -/
def Makefile.make (ev : Env) (fs : FileSys) (config : Config)
    (path template_path sketch_path : Path) : Except Err MakefileG :=
  match sketch_path.to_relative ev fs (RawPath.abs path.parent_dir.path) with
  | Except.error e => Except.error e
  | Except.ok srel => Except.ok ⟨path, config, srel, template_path⟩

/-- One `--library` line of the `LIBS_PLACEHOLDER` expansion. Note the
final branch renders `str(lib_path)`, which is the default object
representation (`pathStr`), not the path text. -/
def libDirective (ev : Env) (fs : FileSys) (m : MakefileG) (lp : Path) :
    Except Err String :=
  if lp.isuser then
    match lp.rel_path with
    | Except.error e => Except.error e
    | Except.ok r =>
      Except.ok ("\t\t--library \"" ++ ("$(HOME)" ++ "/" ++ relCompsToString r) ++ "\" \\\n")
  else if lp.isrel then
    match lp.to_relative ev fs (RawPath.abs m.path.parent_dir.path) with
    | Except.error e => Except.error e
    | Except.ok t =>
      match t.rel_path with
      | Except.error e => Except.error e
      | Except.ok r =>
        Except.ok ("\t\t--library \"" ++ ("$(MAKEFILE_DIR)" ++ "/" ++ relCompsToString r) ++ "\" \\\n")
  else
    Except.ok ("\t\t--library \"" ++ pathStr lp ++ "\" \\\n")

/-- The `LIBS_PLACEHOLDER` body: check the library directories exist,
then emit one directive per library path. -/
def libDirectives (ev : Env) (fs : FileSys) (m : MakefileG) :
    List Path → Except Err (List String)
  | [] => Except.ok []
  | lp :: rest =>
    match libDirective ev fs m lp with
    | Except.error e => Except.error e
    | Except.ok s =>
      match libDirectives ev fs m rest with
      | Except.error e => Except.error e
      | Except.ok ss => Except.ok (s :: ss)

/-- `Makefile.replace_tokens`, one template line at a time. -/
def Makefile.replace_tokens (ev : Env) (fs : FileSys) (m : MakefileG)
    (line : String) (sketch_path : Path) : Except Err (List String) :=
  if strHas line "LIBS_PLACEHOLDER" then
    match check_dirs_exist ev fs m.config.lib_paths with
    | Except.error e => Except.error e
    | Except.ok _ => libDirectives ev fs m m.config.lib_paths
  else if strHas line "FQBN_PLACEHOLDER" then
    Except.ok [strReplace line "FQBN_PLACEHOLDER" (m.config.fqbn.getD "")]
  else if strHas line "BINDIR_PLACEHOLDER" then
    let bindir_suffix := strReplaceFirst m.path.basename "Makefile" ""
    let bindir := if bindir_suffix = "" then "bin" else "bin" ++ bindir_suffix
    Except.ok [strReplace line "BINDIR_PLACEHOLDER" bindir]
  else if strHas line "BINFILE_PLACEHOLDER" then
    Except.ok [strReplace line "BINFILE_PLACEHOLDER"
      (sketch_path.with_extension ".ino.bin").basename]
  else if strHas line "CFLAGS_PLACEHOLDER" then
    Except.ok [strReplace line "CFLAGS_PLACEHOLDER" (joinSep " " m.config.cflags)]
  else if strHas line "SKETCH_NOEXT_PLACEHOLDER" then
    match sketch_path.to_relative ev fs (RawPath.abs m.path.parent_dir.path) with
    | Except.error e => Except.error e
    | Except.ok t =>
      match (t.with_extension "").rel_path with
      | Except.error e => Except.error e
      | Except.ok r =>
        Except.ok [strReplace line "SKETCH_NOEXT_PLACEHOLDER" (relCompsToString r)]
  else if strHas line "DEBUG_COMMAND_PLACEHOLDER" then
    Except.ok [strReplace line "DEBUG_COMMAND_PLACEHOLDER" m.config.debug_command]
  else if strHas line "BAUDRATE_PLACEHOLDER" then
    Except.ok [strReplace line "BAUDRATE_PLACEHOLDER" m.config.baudrate]
  else
    Except.ok [line]

/-- The body loop of `Makefile.generate`. -/
def Makefile.body (ev : Env) (fs : FileSys) (m : MakefileG) :
    List String → Except Err (List String)
  | [] => Except.ok []
  | l :: rest =>
    match Makefile.replace_tokens ev fs m l m.sketch_path with
    | Except.error e => Except.error e
    | Except.ok out =>
      match Makefile.body ev fs m rest with
      | Except.error e => Except.error e
      | Except.ok outs => Except.ok (out ++ outs)

/-- The full line list `Makefile.generate` writes: header block, then the
expanded template. -/
def Makefile.out_lines (ev : Env) (fs : FileSys) (m : MakefileG)
    (inLines : List String) : Except Err (List String) :=
  match Makefile.body ev fs m inLines with
  | Except.error e => Except.error e
  | Except.ok body => Except.ok (header_strings ev ++ body)

/-- `Makefile.generate`: safe-remove the target, read the template, expand
it, write. The effect trace records the destructive actions in order. -/
def Makefile.generate (ev : Env) (fs : FileSys) (m : MakefileG) :
    List Effect × Except Err FileSys :=
  match Path.safely_remove_or_exit ev fs m.path with
  | Except.error e => ([], Except.error e)
  | Except.ok (effs, fs1) =>
    match read_linesE ev fs1 m.template_path.path with
    | Except.error e => (effs, Except.error e)
    | Except.ok inLines =>
      match Makefile.out_lines ev fs1 m inLines with
      | Except.error e => (effs, Except.error e)
      | Except.ok out =>
        (effs ++ [Effect.write m.path.path], Except.ok (writeLines ev fs1 m.path.path out))

/-- Lexicographic comparison on characters (by code point), used to fix
the otherwise unspecified `os.scandir` enumeration order of the model. -/
def charListLt : List Char → List Char → Bool
  | [], [] => false
  | [], _ :: _ => true
  | _ :: _, [] => false
  | a :: as', b :: bs =>
    if a.toNat < b.toNat then true
    else if b.toNat < a.toNat then false
    else charListLt as' bs

/-- Lexicographic order on entry names. -/
def strLtNames (a b : String) : Bool := charListLt a.toList b.toList

/-- Insertion into a name list kept in ascending order (the model fixes
the otherwise unspecified `os.scandir` enumeration order). -/
def insertSorted (x : String) : List String → List String
  | [] => [x]
  | y :: ys => if strLtNames x y then x :: y :: ys else y :: insertSorted x ys

/-- Sort directory entry names (deterministic traversal order). -/
def sortNames (l : List String) : List String :=
  l.foldr insertSorted []

/-- Entry names of the directory at a canonical location: every dir, file
or symlink whose key sits directly below it. -/
def childNamesRaw (fs : FileSys) (rp : Comps) : List String :=
  (fs.dirs.filterMap (fun d => if d ≠ [] ∧ d.dropLast = rp then d.getLast? else none)) ++
  (fs.files.filterMap (fun e => if e.1 ≠ [] ∧ e.1.dropLast = rp then e.1.getLast? else none)) ++
  (fs.links.filterMap (fun e => if e.1 ≠ [] ∧ e.1.dropLast = rp then e.1.getLast? else none))

/-- `os.scandir` under a raw path (resolving it first), with the glob
behaviour of skipping dot-initial names, deduplicated and sorted. -/
def globChildren (ev : Env) (fs : FileSys) (p : Comps) : List String :=
  (sortNames (childNamesRaw fs (realpath fs ev.fuel p)).dedup).filter
    (fun n => !(strStartsWith n "."))

/-- One level of the recursive glob: the directory itself, then its
entries, descending (through `recur`) into (possibly symlinked)
directories. -/
def globRecStep (ev : Env) (fs : FileSys) (recur : Comps → List Comps)
    (raw : Comps) : List Comps :=
  raw :: (globChildren ev fs raw).flatMap (fun n =>
    if isdirP ev fs (raw ++ [n]) then recur (raw ++ [n])
    else [raw ++ [n]])

/-- `glob.iglob(dir + "/**", recursive=True)`: the directory itself, then
a depth-first enumeration of every entry, descending into (possibly
symlinked) directories. Raw, unresolved paths are yielded. -/
def globRec (ev : Env) (fs : FileSys) : Nat → Comps → List Comps
  | 0, raw => [raw]
  | f + 1, raw => globRecStep ev fs (globRec ev fs f) raw

/-- `Qmake.is_rawpath_excluded`: compare the resolved raw path string
against `str(excluded_dir)` — which, `Path` having no `__str__`, is the
default object representation, never a prefix of a path string. -/
def is_rawpath_excluded (raw_real_path : String) (excluded_dirs : List Path) : Bool :=
  excluded_dirs.any (fun d => strStartsWith raw_real_path (pathStr d))

/-- The `Qmake` object (its `__init__`, lines 379-390). -/
structure QmakeG where
  path : Path
  prifile_path : Path
  config : Config
  template_path : Path
  prifile_template_path : Path
  sketch_path : Path
  makefile_path : Path
  included_dirs : List Path
  excluded_dirs : List Path
  script_path : Path
deriving DecidableEq, Inhabited

/-- `Qmake.__init__`. -/
def Qmake.make (ev : Env) (fs : FileSys) (config : Config)
    (path template_path sketch_path makefile_path : Path) : Except Err QmakeG :=
  match sketch_path.to_relative ev fs (RawPath.abs path.parent_dir.path) with
  | Except.error e => Except.error e
  | Except.ok srel =>
    Except.ok ⟨path, path.with_extension ".pri", config, template_path,
      template_path.with_extension ".pri", srel, makefile_path,
      [srel.parent_dir] ++ config.lib_paths ++ config.qmake_dirs,
      config.qmake_exclude_dirs, path.with_extension ""⟩

/-- `Qmake.path_from_ancestor`: re-home a resolved hit depending on the
domain of the root that reached it. -/
def path_from_ancestor (ev : Env) (fs : FileSys) (ancestor qmake_path : Path)
    (raw : Comps) : Except Err Path :=
  if ancestor.isuser then
    Path.make ev fs (RawPath.user (relpathComps raw ev.home)) none
  else if ancestor.isabs then
    Path.make ev fs (RawPath.abs raw) none
  else
    match Path.make ev fs (RawPath.abs raw) none with
    | Except.error e => Except.error e
    | Except.ok p => p.to_relative ev fs (RawPath.abs qmake_path.parent_dir.path)

/-- The filter-and-collect step of `Qmake.get_files` for one raw hit. -/
def getFilesStep (ev : Env) (fs : FileSys) (q : QmakeG) (extensions : List String)
    (incDir : Path) (acc : List Path × List Comps) (raw : Comps) :
    Except Err (List Path × List Comps) :=
  let rrp := realpath fs ev.fuel raw
  if is_rawpath_excluded (compsToString rrp) q.excluded_dirs then Except.ok acc
  else if !(isfileP ev fs rrp) then Except.ok acc
  else if !(extensions.contains (extOfName (rrp.getLast?.getD ""))) then Except.ok acc
  else if acc.2.contains rrp then Except.ok acc
  else
    match path_from_ancestor ev fs incDir q.path rrp with
    | Except.error e => Except.error e
    | Except.ok np => Except.ok (acc.1 ++ [np], acc.2 ++ [realpath fs ev.fuel rrp])

/-- Fold `getFilesStep` over one root's glob enumeration. -/
def getFilesDir (ev : Env) (fs : FileSys) (q : QmakeG) (extensions : List String)
    (incDir : Path) : List Path × List Comps → List Comps →
    Except Err (List Path × List Comps)
  | acc, [] => Except.ok acc
  | acc, raw :: rest =>
    match getFilesStep ev fs q extensions incDir acc raw with
    | Except.error e => Except.error e
    | Except.ok acc' => getFilesDir ev fs q extensions incDir acc' rest

/-- The outer loop of `Qmake.get_files` over the included roots. -/
def getFilesDirs (ev : Env) (fs : FileSys) (q : QmakeG) (extensions : List String) :
    List Path × List Comps → List Path → Except Err (List Path × List Comps)
  | acc, [] => Except.ok acc
  | acc, d :: rest =>
    match getFilesDir ev fs q extensions d acc (globRec ev fs ev.fuel d.path) with
    | Except.error e => Except.error e
    | Except.ok acc' => getFilesDirs ev fs q extensions acc' rest

/-- `Qmake.get_files`: enumerate the included roots, drop exclusions and
non-matching extensions, deduplicate by resolved location (first
occurrence wins), re-home each survivor by its root's domain. -/
def Qmake.get_files (ev : Env) (fs : FileSys) (q : QmakeG)
    (extensions : List String) : Except Err (List Path) :=
  match getFilesDirs ev fs q extensions ([], []) q.included_dirs with
  | Except.error e => Except.error e
  | Except.ok (ret, _) => Except.ok ret

/-- `Qmake.get_other_files`. -/
def Qmake.get_other_files (q : QmakeG) : List Path :=
  [q.makefile_path] ++ q.config.paths

/-- `Qmake.headers_dirs`: parent directories of the headers, deduplicated
by `Path.__eq__` with the adjacent-duplicate shortcut of the source. -/
def headersDirsGo : Option Path → List Path → List Path → List Path
  | _, acc, [] => acc
  | prev, acc, h :: rest =>
    if (match prev with
        | some p => p.path == h.parent_dir.path
        | none => false) then
      headersDirsGo prev acc rest
    else
      let hd := h.parent_dir
      if acc.any (fun r => r.path == hd.path) then headersDirsGo (some hd) acc rest
      else headersDirsGo (some hd) (acc ++ [hd]) rest

/-- `Qmake.headers_dirs`. -/
def Qmake.headers_dirs (headers : List Path) : List Path :=
  headersDirsGo none [] headers

/-- `Qmake.to_qmake_define`: strip the leading `-D`, escape quotes. -/
def to_qmake_define (define : String) : String :=
  strReplace (strDrop define 2) "\\\"" "\\\\\\\""

/-- `Qmake.to_qmake_file_directive`. -/
def to_qmake_file_directive (ev : Env) (fs : FileSys) (file_path qmake_path : Path) :
    Except Err String :=
  if file_path.isuser then
    match file_path.rel_path with
    | Except.error e => Except.error e
    | Except.ok r => Except.ok ("\t" ++ "$$HOME/" ++ relCompsToString r ++ " \\\n")
  else if file_path.isabs then
    Except.ok ("\t" ++ compsToString file_path.path ++ " \\\n")
  else
    match file_path.to_relative ev fs (RawPath.abs qmake_path.parent_dir.path) with
    | Except.error e => Except.error e
    | Except.ok t =>
      match t.rel_path with
      | Except.error e => Except.error e
      | Except.ok r => Except.ok ("\t" ++ relCompsToString r ++ " \\\n")

/-- The path-list expansion of `Qmake.replace_tokens` (lines 480-488):
keep a path when its domain is admitted by the flags ("user paths are not
considered relative"). -/
def qmakePathLines (ev : Env) (fs : FileSys) (q : QmakeG)
    (include_abs include_rel include_user : Bool) :
    List Path → Except Err (List String)
  | [] => Except.ok []
  | p :: rest =>
    let isrel := p.isrel && !(p.isuser)
    if (isrel && include_rel) || (p.isuser && include_user) || (p.isabs && include_abs) then
      match to_qmake_file_directive ev fs p q.path with
      | Except.error e => Except.error e
      | Except.ok s =>
        match qmakePathLines ev fs q include_abs include_rel include_user rest with
        | Except.error e => Except.error e
        | Except.ok ss => Except.ok (s :: ss)
    else qmakePathLines ev fs q include_abs include_rel include_user rest

/-- `Qmake.replace_tokens`. In the final branch the source returns the
bare string (not a one-element list); the caller's `out_lines += …` then
splices its characters, which `writelines` rejoins — equivalent, for the
written file, to the one-element list used here. -/
def Qmake.replace_tokens (ev : Env) (fs : FileSys) (q : QmakeG) (line : String)
    (other_files headers sources includepaths : List Path) (defines : List String)
    (include_abs include_rel include_user : Bool) : Except Err (List String) :=
  if strHas line "TARGET_PLACEHOLDER" then
    match (q.script_path.with_extension "").to_relative ev fs
        (RawPath.abs q.path.parent_dir.path) with
    | Except.error e => Except.error e
    | Except.ok t =>
      match t.rel_path with
      | Except.error e => Except.error e
      | Except.ok r => Except.ok [strReplace line "TARGET_PLACEHOLDER" (relCompsToString r)]
  else if strHas line "MAKEFILE_PLACEHOLDER" then
    match q.makefile_path.to_relative ev fs (RawPath.abs q.path.parent_dir.path) with
    | Except.error e => Except.error e
    | Except.ok t =>
      match t.rel_path with
      | Except.error e => Except.error e
      | Except.ok r => Except.ok [strReplace line "MAKEFILE_PLACEHOLDER" (relCompsToString r)]
  else if strHas line "PRIFILE_PLACEHOLDER" then
    match q.prifile_path.to_relative ev fs (RawPath.abs q.path.parent_dir.path) with
    | Except.error e => Except.error e
    | Except.ok t =>
      match t.rel_path with
      | Except.error e => Except.error e
      | Except.ok r => Except.ok [strReplace line "PRIFILE_PLACEHOLDER" (relCompsToString r)]
  else if strHas line "DEFINES_PLACEHOLDER" then
    Except.ok (defines.map (fun d => "\t" ++ to_qmake_define d ++ " \\\n"))
  else if strHas line "OTHER_FILES_PLACEHOLDER" then
    qmakePathLines ev fs q include_abs include_rel include_user other_files
  else if strHas line "SOURCES_PLACEHOLDER" then
    qmakePathLines ev fs q include_abs include_rel include_user sources
  else if strHas line "HEADERS_PLACEHOLDER" then
    qmakePathLines ev fs q include_abs include_rel include_user headers
  else if strHas line "INCLUDEPATH_PLACEHOLDER" then
    qmakePathLines ev fs q include_abs include_rel include_user includepaths
  else
    Except.ok [line]

/-- The body loop of `Qmake.generate` for one template. -/
def Qmake.body (ev : Env) (fs : FileSys) (q : QmakeG)
    (other_files headers sources includepaths : List Path) (defines : List String)
    (include_abs include_rel include_user : Bool) :
    List String → Except Err (List String)
  | [] => Except.ok []
  | l :: rest =>
    match Qmake.replace_tokens ev fs q l other_files headers sources includepaths
        defines include_abs include_rel include_user with
    | Except.error e => Except.error e
    | Except.ok out =>
      match Qmake.body ev fs q other_files headers sources includepaths defines
          include_abs include_rel include_user rest with
      | Except.error e => Except.error e
      | Except.ok outs => Except.ok (out ++ outs)

/-- The full line list written for the `.pro` (or `.pri`) file: header
block, then the expanded template. -/
def Qmake.out_lines (ev : Env) (fs : FileSys) (q : QmakeG) (inLines : List String)
    (other_files headers sources includepaths : List Path) (defines : List String)
    (include_abs include_rel include_user : Bool) : Except Err (List String) :=
  match Qmake.body ev fs q other_files headers sources includepaths defines
      include_abs include_rel include_user inLines with
  | Except.error e => Except.error e
  | Except.ok body => Except.ok (header_strings ev ++ body)

/-- The line list of the helper run script (`Qmake.create_runscript`):
shebang first, then the header block, then the `make` invocation. -/
def Qmake.create_runscript_lines (ev : Env) (fs : FileSys) (q : QmakeG) :
    Except Err (List String) :=
  match q.makefile_path.to_relative ev fs (RawPath.abs q.script_path.parent_dir.path) with
  | Except.error e => Except.error e
  | Except.ok t =>
    match t.rel_path with
    | Except.error e => Except.error e
    | Except.ok r =>
      Except.ok (["#!/bin/sh\n"] ++ header_strings ev ++
        ["make -f " ++ relCompsToString r ++ " run\n"])

/-- `Qmake.create_runscript`: safe-remove, relativize, write, chmod. -/
def Qmake.create_runscript (ev : Env) (fs : FileSys) (q : QmakeG) :
    List Effect × Except Err FileSys :=
  match Path.safely_remove_or_exit ev fs q.script_path with
  | Except.error e => ([], Except.error e)
  | Except.ok (effs, fs1) =>
    match Qmake.create_runscript_lines ev fs1 q with
    | Except.error e => (effs, Except.error e)
    | Except.ok out =>
      (effs ++ [Effect.write q.script_path.path, Effect.chmod q.script_path.path],
        Except.ok (writeLines ev fs1 q.script_path.path out))

/-- `Qmake.generate`: safe-remove both outputs, scan, expand and write the
`.pro` and `.pri` files, then the run script. The preprocessor defines
come from the opaque toolchain invocation (`Env.build_defines`). -/
def Qmake.generate (ev : Env) (fs : FileSys) (q : QmakeG) :
    List Effect × Except Err FileSys :=
  match Path.safely_remove_or_exit ev fs q.path with
  | Except.error e => ([], Except.error e)
  | Except.ok (e1, fs1) =>
    match Path.safely_remove_or_exit ev fs1 q.prifile_path with
    | Except.error e => (e1, Except.error e)
    | Except.ok (e2, fs2) =>
      let other_files := Qmake.get_other_files q
      match Qmake.get_files ev fs2 q [".h", ".hpp"] with
      | Except.error e => (e1 ++ e2, Except.error e)
      | Except.ok headers =>
        match Qmake.get_files ev fs2 q [".c", ".cpp"] with
        | Except.error e => (e1 ++ e2, Except.error e)
        | Except.ok sources0 =>
          let sources := q.sketch_path :: sources0
          let includepaths := Qmake.headers_dirs headers
          let defines := ev.build_defines
          match read_linesE ev fs2 q.template_path.path with
          | Except.error e => (e1 ++ e2, Except.error e)
          | Except.ok proIn =>
            match Qmake.out_lines ev fs2 q proIn other_files headers sources
                includepaths defines false true false with
            | Except.error e => (e1 ++ e2, Except.error e)
            | Except.ok proOut =>
              let fs3 := writeLines ev fs2 q.path.path proOut
              match read_linesE ev fs3 q.prifile_template_path.path with
              | Except.error e => (e1 ++ e2 ++ [Effect.write q.path.path], Except.error e)
              | Except.ok priIn =>
                match Qmake.out_lines ev fs3 q priIn other_files headers sources
                    includepaths defines true false true with
                | Except.error e => (e1 ++ e2 ++ [Effect.write q.path.path], Except.error e)
                | Except.ok priOut =>
                  let fs4 := writeLines ev fs3 q.prifile_path.path priOut
                  match Qmake.create_runscript ev fs4 q with
                  | (e3, Except.error e) =>
                    (e1 ++ e2 ++ [Effect.write q.path.path, Effect.write q.prifile_path.path]
                      ++ e3, Except.error e)
                  | (e3, Except.ok fs5) =>
                    (e1 ++ e2 ++ [Effect.write q.path.path, Effect.write q.prifile_path.path]
                      ++ e3, Except.ok fs5)

/-- The parsed command line (`argparse` result). -/
structure Args where
  sketch : RawPath
  config : List RawPath
  makefile : RawPath
  makefile_template : Option RawPath
  qmake : Option RawPath
  qmake_template : Option RawPath
deriving DecidableEq, Inhabited

/-- `os.path.basename` of a raw argument string. -/
def rawBasename : RawPath → String
  | RawPath.abs cs => cs.getLast?.getD ""
  | RawPath.rel cs => cs.getLast?.getD ""
  | RawPath.user cs => cs.getLast?.getD ""

/-- The values `main` computes before any composition or generation. -/
structure Pre where
  sketch_path : Path
  config_paths : List Path
  makefile_path : Path
  makefile_template_path : Path
  qmake : Option (Path × Path)
deriving DecidableEq, Inhabited

/-- Resolve the configured paths against `os.getcwd()`. -/
def makeConfigPaths (ev : Env) (fs : FileSys) : List RawPath → Except Err (List Path)
  | [] => Except.ok []
  | r :: rest =>
    match Path.make ev fs r (some (RawPath.abs ev.cwd)) with
    | Except.error e => Except.error e
    | Except.ok p =>
      match makeConfigPaths ev fs rest with
      | Except.error e => Except.error e
      | Except.ok ps => Except.ok (p :: ps)

/-- The validation prefix of `main` (lines 634-656): resolve every input
path, reject bad output names, assemble the required-file list, check it.
No filesystem mutation happens here. -/
def mainPre (ev : Env) (fs : FileSys) (args : Args) : Except Err Pre :=
  match Path.make ev fs args.sketch (some (RawPath.abs ev.cwd)) with
  | Except.error e => Except.error e
  | Except.ok sketch =>
    match makeConfigPaths ev fs args.config with
    | Except.error e => Except.error e
    | Except.ok configs =>
      if !(strStartsWith (rawBasename args.makefile) "Makefile") then
        Except.error Err.badMakefileName
      else
        match Path.make ev fs args.makefile (some (RawPath.abs ev.cwd)) with
        | Except.error e => Except.error e
        | Except.ok mkp =>
          match (match args.makefile_template with
            | some t => Path.make ev fs t (some (RawPath.abs ev.cwd))
            | none =>
              Path.make ev fs (RawPath.abs (ev.script_dir ++ ["templates", "Makefile"])) none) with
          | Except.error e => Except.error e
          | Except.ok mtp =>
            match (match args.qmake with
              | none => Except.ok (none, ([] : List Path))
              | some qraw =>
                match Path.make ev fs qraw (some (RawPath.abs ev.cwd)) with
                | Except.error e => Except.error e
                | Except.ok qp =>
                  if !(strEndsWith (rawBasename qraw) ".pro") then
                    Except.error Err.badQmakeName
                  else
                    match (match args.qmake_template with
                      | some t => Path.make ev fs t (some (RawPath.abs ev.cwd))
                      | none =>
                        Path.make ev fs
                          (RawPath.abs (ev.script_dir ++ ["templates", "qmake.pro"])) none) with
                    | Except.error e => Except.error e
                    | Except.ok qtp => Except.ok (some (qp, qtp), [qtp])) with
            | Except.error e => Except.error e
            | Except.ok (qopt, qreq) =>
              match check_files_exist ev fs ([sketch] ++ configs ++ [mtp] ++ qreq) with
              | Except.error e => Except.error e
              | Except.ok _ => Except.ok ⟨sketch, configs, mkp, mtp, qopt⟩

/-- `main` end to end: validation prefix, configuration composition,
Makefile generation, optional qmake generation. The first component is
the ordered trace of destructive actions actually performed. -/
def mainRun (ev : Env) (fs : FileSys) (fuel : Nat) (args : Args) :
    List Effect × Except Err FileSys :=
  match mainPre ev fs args with
  | Except.error e => ([], Except.error e)
  | Except.ok pre =>
    match Config.make ev fs fuel ⟨[], []⟩ pre.config_paths with
    | Except.error (e, _) => ([], Except.error e)
    | Except.ok (cfg, _) =>
      match Makefile.make ev fs cfg pre.makefile_path pre.makefile_template_path
          pre.sketch_path with
      | Except.error e => ([], Except.error e)
      | Except.ok m =>
        match Makefile.generate ev fs m with
        | (effs, Except.error e) => (effs, Except.error e)
        | (effs, Except.ok fs1) =>
          match pre.qmake with
          | none => (effs, Except.ok fs1)
          | some (qp, qtp) =>
            match Qmake.make ev fs1 cfg qp qtp pre.sketch_path pre.makefile_path with
            | Except.error e => (effs, Except.error e)
            | Except.ok q =>
              match Qmake.generate ev fs1 q with
              | (effs2, r) => (effs ++ effs2, r)

/-- Components free of `.` and `..` (the shape of normalised paths). -/
def NoDots (cs : Comps) : Prop := ∀ c ∈ cs, c ≠ "." ∧ c ≠ ".."

/-- The `fqbn` value a document list leaves behind (last key wins). -/
def declaredFqbn : List CEntry → Option String
  | [] => none
  | CEntry.fqbn v :: rest => (declaredFqbn rest).or (some v)
  | _ :: rest => declaredFqbn rest

/-- The `baudrate` value a document list leaves behind (last key wins). -/
def declaredBaud : List CEntry → Option String
  | [] => none
  | CEntry.baudrate v :: rest => (declaredBaud rest).or (some v)
  | _ :: rest => declaredBaud rest

/-- The `debug_command` value a document list leaves behind. -/
def declaredDebug : List CEntry → Option String
  | [] => none
  | CEntry.debugCommand v :: rest => (declaredDebug rest).or (some v)
  | _ :: rest => declaredDebug rest

/-- All `cflags` entries of a document, concatenated in order. -/
def declaredCflags : List CEntry → List String
  | [] => []
  | CEntry.cflags vs :: rest => vs ++ declaredCflags rest
  | _ :: rest => declaredCflags rest

/-- All `libs` entries of a document, concatenated in order. -/
def declaredLibs : List CEntry → List RawPath
  | [] => []
  | CEntry.libs vs :: rest => vs ++ declaredLibs rest
  | _ :: rest => declaredLibs rest

/-- All `qmake_dirs` entries of a document. -/
def declaredQmakeDirs : List CEntry → List RawPath
  | [] => []
  | CEntry.qmakeDirs vs :: rest => vs ++ declaredQmakeDirs rest
  | _ :: rest => declaredQmakeDirs rest

/-- All `qmake_exclude_dirs` entries of a document. -/
def declaredQmakeExcludeDirs : List CEntry → List RawPath
  | [] => []
  | CEntry.qmakeExcludeDirs vs :: rest => vs ++ declaredQmakeExcludeDirs rest
  | _ :: rest => declaredQmakeExcludeDirs rest

/-- The unrecognised keys of a document, in order. -/
def declaredUnknown : List CEntry → List String
  | [] => []
  | CEntry.unknown k :: rest => k :: declaredUnknown rest
  | _ :: rest => declaredUnknown rest

/-- Resolve raw path strings against a declaring directory, keeping the
successful ones (under a successful merge all of them succeed). -/
def resolveRaws (ev : Env) (fs : FileSys) (parent : Comps) (rs : List RawPath) : List Path :=
  rs.filterMap (fun r => (Path.make ev fs r (some (RawPath.abs parent))).toOption)

/-- `fqbn` across a layer sequence: the last declaring layer wins. -/
def collectedFqbn (fs : FileSys) : List Path → Option String
  | [] => none
  | p :: rest =>
    match yamlAt fs p.path with
    | some d => (collectedFqbn fs rest).or (declaredFqbn d.entries)
    | none => collectedFqbn fs rest

/-- `baudrate` across a layer sequence: the last declaring layer wins. -/
def collectedBaud (fs : FileSys) : List Path → Option String
  | [] => none
  | p :: rest =>
    match yamlAt fs p.path with
    | some d => (collectedBaud fs rest).or (declaredBaud d.entries)
    | none => collectedBaud fs rest

/-- `debug_command` across a layer sequence. -/
def collectedDebug (fs : FileSys) : List Path → Option String
  | [] => none
  | p :: rest =>
    match yamlAt fs p.path with
    | some d => (collectedDebug fs rest).or (declaredDebug d.entries)
    | none => collectedDebug fs rest

/-- `cflags` across a layer sequence: appended in layer order. -/
def collectedCflags (fs : FileSys) : List Path → List String
  | [] => []
  | p :: rest =>
    (match yamlAt fs p.path with
     | some d => declaredCflags d.entries
     | none => []) ++ collectedCflags fs rest

/-- Unknown-key warnings across a layer sequence. -/
def collectedWarnings (fs : FileSys) : List Path → List String
  | [] => []
  | p :: rest =>
    (match yamlAt fs p.path with
     | some d => declaredUnknown d.entries
     | none => []) ++ collectedWarnings fs rest

/-- Library paths across a layer sequence, each declaration resolved
against its own declaring file's parent directory. -/
def collectedLibs (ev : Env) (fs : FileSys) : List Path → List Path
  | [] => []
  | p :: rest =>
    (match yamlAt fs p.path with
     | some d => resolveRaws ev fs p.parent_dir.path (declaredLibs d.entries)
     | none => []) ++ collectedLibs ev fs rest

/-- `qmake_dirs` across a layer sequence, resolved per declaring file. -/
def collectedQmakeDirs (ev : Env) (fs : FileSys) : List Path → List Path
  | [] => []
  | p :: rest =>
    (match yamlAt fs p.path with
     | some d => resolveRaws ev fs p.parent_dir.path (declaredQmakeDirs d.entries)
     | none => []) ++ collectedQmakeDirs ev fs rest

/-- `qmake_exclude_dirs` across a layer sequence, resolved per declaring
file. -/
def collectedQmakeExcludeDirs (ev : Env) (fs : FileSys) : List Path → List Path
  | [] => []
  | p :: rest =>
    (match yamlAt fs p.path with
     | some d => resolveRaws ev fs p.parent_dir.path (declaredQmakeExcludeDirs d.entries)
     | none => []) ++ collectedQmakeExcludeDirs ev fs rest

/-- A generic process environment for the concrete scenarios: home
`/home/u`, working directory `/`, script at `/app`, 16 resolver steps. -/
def exEnv : Env :=
  ⟨["home", "u"], [], ["app"], "arduino-genmakefile.py --sketch s.ino", [], 16⟩

/-- Scenario for C1: `/link` is a symlink to the directory `/d/e`. -/
def fsLink : FileSys := ⟨[(["link"], ["d", "e"])], [[], ["d"], ["d", "e"]], []⟩

/-- `Path("x", "/link")`: canonically `/d/e/x`. -/
def pOrig : Path := ⟨PType.Relative, some ["link"], ["d", "e", "x"]⟩

/-- Its round trip through `to_relative("/link")`: canonically `/d/d/e/x`. -/
def pBack : Path := ⟨PType.Relative, some ["link"], ["d", "d", "e", "x"]⟩

/-- Scenario for C2's counterexample: `a` includes `b` and `c`; `b`
includes `d`; `c` includes `d` and `e`; `e` includes `c` (a cycle reached
after the diamond over `d`). -/
def fsDiamond : FileSys := ⟨[], [[]],
  [(["a"], FileData.yaml ⟨[CEntry.configs [RawPath.abs ["b"], RawPath.abs ["c"]]]⟩),
   (["b"], FileData.yaml ⟨[CEntry.configs [RawPath.abs ["d"]]]⟩),
   (["c"], FileData.yaml ⟨[CEntry.configs [RawPath.abs ["d"], RawPath.abs ["e"]]]⟩),
   (["d"], FileData.yaml ⟨[]⟩),
   (["e"], FileData.yaml ⟨[CEntry.configs [RawPath.abs ["c"]]]⟩)]⟩

/-- The root configuration `/a` of the diamond scenario. -/
def paD : Path := ⟨PType.Absolute, none, ["a"]⟩

/-- `/c` of the diamond scenario. -/
def pcD : Path := ⟨PType.Absolute, none, ["c"]⟩

/-- `/e` of the diamond scenario. -/
def peD : Path := ⟨PType.Absolute, none, ["e"]⟩

/-- Scenario for C2's witness and C8: `x` and `y` include each other. -/
def fsTwoCycle : FileSys := ⟨[], [[]],
  [(["x"], FileData.yaml ⟨[CEntry.configs [RawPath.abs ["y"]]]⟩),
   (["y"], FileData.yaml ⟨[CEntry.configs [RawPath.abs ["x"]]]⟩)]⟩

/-- `/x` of the two-cycle scenario. -/
def pxC : Path := ⟨PType.Absolute, none, ["x"]⟩

/-- `/y` of the two-cycle scenario. -/
def pyC : Path := ⟨PType.Absolute, none, ["y"]⟩

/-- The residual state `Config.extra_config_stack` is left in after the
failed composition of the two-cycle scenario. -/
def stResidue : CState := ⟨[pxC, pyC], [["x"], ["y"]]⟩

/-- Scenario for C3's witness: layer X (`/cx/x.yaml`) sets `fqbn`,
`cflags=[a]`, `baudrate=9600`, a library `la` and an unknown key; layer Y
(`/cy/y.yaml`) appends `cflags=[b]`, overrides `baudrate=57600` and
appends a library `lb`. -/
def fsMerge : FileSys := ⟨[], [[], ["cx"], ["cy"]],
  [(["cx", "x.yaml"], FileData.yaml ⟨[CEntry.fqbn "f1", CEntry.cflags ["a"],
      CEntry.baudrate "9600", CEntry.libs [RawPath.rel ["la"]], CEntry.unknown "oops"]⟩),
   (["cy", "y.yaml"], FileData.yaml ⟨[CEntry.cflags ["b"], CEntry.baudrate "57600",
      CEntry.libs [RawPath.rel ["lb"]]]⟩)]⟩

/-- Layer X of the merge scenario. -/
def pXW : Path := ⟨PType.Absolute, none, ["cx", "x.yaml"]⟩

/-- Layer Y of the merge scenario. -/
def pYW : Path := ⟨PType.Absolute, none, ["cy", "y.yaml"]⟩

/-- The merged configuration of the merge scenario. -/
def cWm : Config :=
  ⟨[pXW, pYW], [pXW, pYW], some "f1", ["a", "b"], "cat $$SERIALPORT", "57600",
    [⟨PType.Relative, some ["cx"], ["cx", "la"]⟩, ⟨PType.Relative, some ["cy"], ["cy", "lb"]⟩],
    [], [], ["oops"]⟩

/-- The final composer state of the merge scenario (each layer parsed
once while flattening, once while merging). -/
def stWM : CState :=
  ⟨[], [["cx", "x.yaml"], ["cy", "y.yaml"], ["cx", "x.yaml"], ["cy", "y.yaml"]]⟩

/-- Scenario for C4: the target `/gen` is a non-empty file whose first
line is not the marker but whose second line is. -/
def fsMarker : FileSys := ⟨[], [[]],
  [(["gen"], FileData.text ["junk first line\n", "# Generated by arduino-genmakefile\n"])]⟩

/-- The target path of the C4 scenario. -/
def pGen : Path := ⟨PType.Absolute, none, ["gen"]⟩

/-- C4 witness scenario: a non-empty file without the marker anywhere. -/
def fsNoMarker : FileSys := ⟨[], [[]], [(["user.txt"], FileData.text ["precious data\n"])]⟩

/-- The target path of the C4 witness scenario. -/
def pUser : Path := ⟨PType.Absolute, none, ["user.txt"]⟩

/-- Scenario for C5: the only configuration layer sets `cflags` but never
`fqbn`; sketch, configuration and template files exist under `/`. -/
def fsNoFqbn : FileSys := ⟨[], [[]],
  [(["s.ino"], FileData.text ["void loop()\n"]),
   (["c.yaml"], FileData.yaml ⟨[CEntry.cflags ["-Da"]]⟩),
   (["tmpl"], FileData.text ["build:\n"])]⟩

/-- The command line of the C5 scenario. -/
def argsNoFqbn : Args :=
  ⟨RawPath.rel ["s.ino"], [RawPath.rel ["c.yaml"]], RawPath.rel ["Makefile"],
    some (RawPath.rel ["tmpl"]), none, none⟩

/-- The configuration path `mainPre` computes in the C5 scenario. -/
def pc5 : Path := ⟨PType.Relative, some [], ["c.yaml"]⟩

/-- The `main` prefix result of the C5 scenario. -/
def pre5 : Pre :=
  ⟨⟨PType.Relative, some [], ["s.ino"]⟩, [pc5], ⟨PType.Relative, some [], ["Makefile"]⟩,
    ⟨PType.Relative, some [], ["tmpl"]⟩, none⟩

/-- Scenario for C6: root `/i` holds `g.cpp` and the subdirectory
`/i/sub` — configured as excluded — holding `f.cpp`. -/
def fsScan : FileSys := ⟨[], [[], ["i"], ["i", "sub"], ["q"]],
  [(["i", "g.cpp"], FileData.text []), (["i", "sub", "f.cpp"], FileData.text [])]⟩

/-- A minimal effective configuration for the scan scenarios. -/
def cfgScan : Config := ⟨[], [], some "fqbn", [], "cat $$SERIALPORT", "115200", [], [], [], []⟩

/-- The `Qmake` object of the C6 scenario: one included root `/i`, one
excluded directory `/i/sub`. -/
def qScan : QmakeG :=
  ⟨⟨PType.Absolute, none, ["q", "p.pro"]⟩, ⟨PType.Absolute, none, ["q", "p.pri"]⟩, cfgScan,
    ⟨PType.Absolute, none, ["qt", "t.pro"]⟩, ⟨PType.Absolute, none, ["qt", "t.pri"]⟩,
    ⟨PType.Absolute, none, ["s", "sk.ino"]⟩, ⟨PType.Absolute, none, ["m", "Makefile"]⟩,
    [⟨PType.Absolute, none, ["i"]⟩], [⟨PType.Absolute, none, ["i", "sub"]⟩],
    ⟨PType.Absolute, none, ["q", "p"]⟩⟩

/-- Scenario for C7: a previously generated `/Makefile` exists, the
configuration names a library directory `/nolib` that does not exist, and
the template contains the library placeholder. -/
def fsStale : FileSys := ⟨[], [[]],
  [(["s.ino"], FileData.text ["void loop()\n"]),
   (["c.yaml"], FileData.yaml ⟨[CEntry.fqbn "arduino:avr:uno",
      CEntry.libs [RawPath.rel ["nolib"]]]⟩),
   (["Makefile"], FileData.text ["# Generated by arduino-genmakefile\n"]),
   (["tmpl"], FileData.text ["build:\n", "LIBS_PLACEHOLDER\n"])]⟩

/-- The command line of the C7 scenario. -/
def argsStale : Args :=
  ⟨RawPath.rel ["s.ino"], [RawPath.rel ["c.yaml"]], RawPath.rel ["Makefile"],
    some (RawPath.rel ["tmpl"]), none, none⟩

/-- Scenario for C9: a qmake project under `/q` whose Makefile lives
under `/m`. -/
def fsRun : FileSys := ⟨[], [[], ["q"], ["m"]], []⟩

/-- The `Qmake` object of the C9 scenario. -/
def qRun : QmakeG :=
  ⟨⟨PType.Absolute, none, ["q", "p.pro"]⟩, ⟨PType.Absolute, none, ["q", "p.pri"]⟩, cfgScan,
    ⟨PType.Absolute, none, ["qt", "t.pro"]⟩, ⟨PType.Absolute, none, ["qt", "t.pri"]⟩,
    ⟨PType.Absolute, none, ["s", "sk.ino"]⟩, ⟨PType.Absolute, none, ["m", "Makefile"]⟩,
    [], [], ⟨PType.Absolute, none, ["q", "p"]⟩⟩

/-- A `Makefile` object for the C9 witness (template-independent). -/
def mRun : MakefileG :=
  ⟨⟨PType.Absolute, none, ["m", "Makefile"]⟩, cfgScan,
    ⟨PType.Relative, some ["m"], ["s", "sk.ino"]⟩, ⟨PType.Absolute, none, ["mt", "tm"]⟩⟩

/-- A user-relative path for the C10 witness: `Path("~/sk/x.ino")`. -/
def pUserRel : Path := ⟨PType.User, some ["home", "u"], ["home", "u", "sk", "x.ino"]⟩

theorem normAux_nil (acc : Comps) : normAux acc [] = acc := rfl

theorem normAux_dot (acc rest : Comps) : normAux acc ("." :: rest) = normAux acc rest := by
  rw [normAux, if_pos rfl]

theorem normAux_dotdot (acc rest : Comps) :
    normAux acc (".." :: rest) = normAux acc.dropLast rest := by
  rw [normAux, if_neg (by decide), if_pos rfl]

theorem normAux_cons (c : String) (acc rest : Comps) (h1 : c ≠ ".") (h2 : c ≠ "..") :
    normAux acc (c :: rest) = normAux (acc ++ [c]) rest := by
  rw [normAux, if_neg h1, if_neg h2]

theorem normAux_append (xs : Comps) :
    ∀ acc ys : Comps, normAux acc (xs ++ ys) = normAux (normAux acc xs) ys := by
  induction xs with
  | nil => intro acc ys; rfl
  | cons c rest ih =>
    intro acc ys
    by_cases h1 : c = "."
    · subst h1
      rw [List.cons_append, normAux_dot, normAux_dot, ih]
    · by_cases h2 : c = ".."
      · subst h2
        rw [List.cons_append, normAux_dotdot, normAux_dotdot, ih]
      · rw [List.cons_append, normAux_cons c _ _ h1 h2, normAux_cons c _ _ h1 h2, ih]

theorem normAux_of_noDots : ∀ cs acc : Comps, NoDots cs → normAux acc cs = acc ++ cs := by
  intro cs
  induction cs with
  | nil => intro acc _; simp [normAux_nil]
  | cons c rest ih =>
    intro acc h
    have hc := h c (List.mem_cons_self c rest)
    have hrest : NoDots rest := fun x hx => h x (List.mem_cons_of_mem c hx)
    rw [normAux_cons c _ _ hc.1 hc.2, ih _ hrest]
    simp

theorem noDots_normAux : ∀ cs acc : Comps, NoDots acc → NoDots (normAux acc cs) := by
  intro cs
  induction cs with
  | nil => intro acc h; simpa [normAux_nil] using h
  | cons c rest ih =>
    intro acc h
    by_cases h1 : c = "."
    · subst h1; rw [normAux_dot]; exact ih _ h
    · by_cases h2 : c = ".."
      · subst h2
        rw [normAux_dotdot]
        exact ih _ (fun x hx => h x (List.dropLast_subset _ hx))
      · rw [normAux_cons c _ _ h1 h2]
        refine ih _ (fun x hx => ?_)
        rcases List.mem_append.mp hx with hx | hx
        · exact h x hx
        · rcases List.mem_singleton.mp hx with rfl
          exact ⟨h1, h2⟩

theorem noDots_normComps (cs : Comps) : NoDots (normComps cs) :=
  noDots_normAux cs [] (by intro x hx; cases hx)

theorem normComps_of_noDots (cs : Comps) (h : NoDots cs) : normComps cs = cs := by
  rw [normComps, normAux_of_noDots cs [] h, List.nil_append]

theorem normAux_ups : ∀ (n : Nat) (acc : Comps),
    normAux acc (List.replicate n "..") = acc.take (acc.length - n) := by
  intro n
  induction n with
  | zero => intro acc; simp [normAux_nil]
  | succ m ih =>
    intro acc
    rw [List.replicate_succ, normAux_dotdot, ih]
    rw [List.dropLast_eq_take, List.length_take, List.take_take]
    congr 1
    omega

theorem sharedLen_le_right : ∀ xs ys : Comps, sharedLen xs ys ≤ ys.length := by
  intro xs
  induction xs with
  | nil => intro ys; exact Nat.zero_le _
  | cons a as' ih =>
    intro ys
    cases ys with
    | nil => exact Nat.zero_le _
    | cons b bs =>
      rw [sharedLen]
      by_cases h : a = b
      · rw [if_pos h, List.length_cons]
        exact Nat.succ_le_succ (ih bs)
      · rw [if_neg h]; exact Nat.zero_le _

theorem take_sharedLen : ∀ xs ys : Comps,
    xs.take (sharedLen xs ys) = ys.take (sharedLen xs ys) := by
  intro xs
  induction xs with
  | nil => intro ys; rfl
  | cons a as' ih =>
    intro ys
    cases ys with
    | nil => rfl
    | cons b bs =>
      rw [sharedLen]
      by_cases h : a = b
      · rw [if_pos h, List.take_succ_cons, List.take_succ_cons, ih bs, h]
      · rw [if_neg h]; rfl

/-- Joining a base with `os.path.relpath(t, base)` and normalising gives
back `t`, for any normalised absolute `t`. -/
theorem relpath_roundtrip (t b : Comps) (ht : NoDots t) :
    normComps (b ++ relpathComps t b) = t := by
  have hT : normComps t = t := normComps_of_noDots t ht
  rw [relpathComps]
  simp only [hT]
  have hkB : sharedLen t (normComps b) ≤ (normComps b).length :=
    sharedLen_le_right t (normComps b)
  have hdrop : NoDots (t.drop (sharedLen t (normComps b))) :=
    fun x hx => ht x (List.drop_subset _ _ hx)
  calc normComps (b ++ (List.replicate ((normComps b).length - sharedLen t (normComps b)) ".."
          ++ t.drop (sharedLen t (normComps b))))
      = normAux (normAux [] b) (List.replicate ((normComps b).length
          - sharedLen t (normComps b)) ".." ++ t.drop (sharedLen t (normComps b))) := by
        rw [normComps, normAux_append]
    _ = normAux (normAux (normComps b)
          (List.replicate ((normComps b).length - sharedLen t (normComps b)) ".."))
          (t.drop (sharedLen t (normComps b))) := by
        rw [normAux_append]
        rfl
    _ = normAux ((normComps b).take (sharedLen t (normComps b)))
          (t.drop (sharedLen t (normComps b))) := by
        rw [normAux_ups, Nat.sub_sub_self hkB]
    _ = (normComps b).take (sharedLen t (normComps b)) ++ t.drop (sharedLen t (normComps b)) :=
        normAux_of_noDots _ _ hdrop
    _ = t.take (sharedLen t (normComps b)) ++ t.drop (sharedLen t (normComps b)) := by
        rw [← take_sharedLen t (normComps b)]
    _ = t := List.take_append_drop _ t

theorem realpathAux_nolinks (fs : FileSys) (h : fs.links = []) :
    ∀ (fuel : Nat) (rest acc : Comps), rest.length ≤ fuel →
      realpathAux fs fuel acc rest = normAux acc rest := by
  intro fuel
  induction fuel with
  | zero =>
    intro rest acc hle
    have hr : rest = [] := List.length_eq_zero.mp (Nat.le_zero.mp hle)
    subst hr
    simp [realpathAux, normAux_nil]
  | succ f ih =>
    intro rest acc hle
    cases rest with
    | nil => rfl
    | cons c rest' =>
      have hle' : rest'.length ≤ f := by
        simpa [List.length_cons, Nat.succ_le_succ_iff] using hle
      by_cases h1 : c = "."
      · subst h1
        rw [realpathAux, if_pos rfl, normAux_dot, ih rest' acc hle']
      · by_cases h2 : c = ".."
        · subst h2
          rw [realpathAux, if_neg (by decide), if_pos rfl, normAux_dotdot,
            ih rest' acc.dropLast hle']
        · have hlink : fs.linkAt (acc ++ [c]) = none := by
            rw [FileSys.linkAt, h]
            rfl
          rw [realpathAux, if_neg h1, if_neg h2, hlink, normAux_cons c _ _ h1 h2]
          exact ih rest' (acc ++ [c]) hle'

theorem realpath_nolinks (fs : FileSys) (h : fs.links = []) (fuel : Nat) (cs : Comps)
    (hf : cs.length ≤ fuel) : realpath fs fuel cs = normComps cs :=
  realpathAux_nolinks fs h fuel cs [] hf

theorem check_basedir_valid_ok (ev : Env) (fs : FileSys) (bd : Option RawPath) (u : Unit)
    (h : check_basedir_valid ev fs bd = Except.ok u) : ∃ b, bd = some (RawPath.abs b) := by
  match bd with
  | none => exact absurd h (by simp [check_basedir_valid])
  | some (RawPath.abs b) => exact ⟨b, rfl⟩
  | some (RawPath.rel cs) => exact absurd h (by simp [check_basedir_valid])
  | some (RawPath.user cs) => exact absurd h (by simp [check_basedir_valid])

/-- C1, counterexample: with the valid base directory `/link` — a symlink
to `/d/e` — resolving `"x"` gives canonical `/d/e/x`, but relativizing it
back against `/link` re-resolves the lexical `../d/e/x` through the
symlink and lands at `/d/d/e/x`: the canonical location is not preserved. -/
theorem relativize_resolve_claim_false :
    check_basedir_valid exEnv fsLink (some (RawPath.abs ["link"])) = Except.ok ()
    ∧ Path.make exEnv fsLink (RawPath.rel ["x"]) (some (RawPath.abs ["link"])) = Except.ok pOrig
    ∧ Path.to_relative exEnv fsLink pOrig (RawPath.abs ["link"]) = Except.ok pBack
    ∧ pBack.path ≠ pOrig.path :=
  ⟨rfl, rfl, rfl, by decide⟩

/-- C1, amended: in the absence of symbolic links (and when the relative
rendering is not re-classified as user-home-relative by a leading `~`
component), `Path(p, base).to_relative(base)` names the same canonical
location as `Path(p, base)`. -/
theorem relativize_resolve_roundtrip (ev : Env) (fs : FileSys) (p b : Comps)
    (orig rel2 : Path)
    (hnl : fs.links = [])
    (h1 : (b ++ p).length ≤ ev.fuel)
    (h2 : (b ++ relpathComps (normComps (b ++ p)) b).length ≤ ev.fuel)
    (hcls : rawOfRelComps (relpathComps (normComps (b ++ p)) b)
      = RawPath.rel (relpathComps (normComps (b ++ p)) b))
    (hmk : Path.make ev fs (RawPath.rel p) (some (RawPath.abs b)) = Except.ok orig)
    (hrel : Path.to_relative ev fs orig (RawPath.abs b) = Except.ok rel2) :
    rel2.path = orig.path := by
  cases hcv : check_basedir_valid ev fs (some (RawPath.abs b)) with
  | error e =>
    simp only [Path.make, hcv] at hmk
    exact Except.noConfusion hmk
  | ok u =>
    simp only [Path.make, hcv, Except.ok.injEq] at hmk
    have horig : orig = ⟨PType.Relative, some b, realpath fs ev.fuel (b ++ p)⟩ := hmk.symm
    subst horig
    have hop : realpath fs ev.fuel (b ++ p) = normComps (b ++ p) :=
      realpath_nolinks fs hnl ev.fuel (b ++ p) h1
    simp only [Path.to_relative, hcv] at hrel
    simp only [hop] at hrel
    rw [hcls] at hrel
    simp only [Path.make, hcv, Except.ok.injEq] at hrel
    have hrel2 : rel2
        = ⟨PType.Relative, some b,
            realpath fs ev.fuel (b ++ relpathComps (normComps (b ++ p)) b)⟩ := hrel.symm
    subst hrel2
    show realpath fs ev.fuel (b ++ relpathComps (normComps (b ++ p)) b)
      = realpath fs ev.fuel (b ++ p)
    rw [realpath_nolinks fs hnl ev.fuel _ h2, hop,
      relpath_roundtrip (normComps (b ++ p)) b (noDots_normComps (b ++ p))]

/-- The resolve-then-relativize pair of the witness scenario:
`Path("la", "/cx")`. -/
def pRT : Path := ⟨PType.Relative, some ["cx"], ["cx", "la"]⟩

/-- Witness for C1's amended theorem at `p = "la"`, `base = "/cx"` on a
link-free filesystem. -/
theorem relativize_resolve_roundtrip_witness : pRT.path = pRT.path :=
  relativize_resolve_roundtrip exEnv fsMerge ["la"] ["cx"] pRT pRT rfl
    (by decide) (by decide) (by decide) rfl rfl

/-- C10: `rel_path` fails with the `ValueError` programming-error signal
exactly on `Absolute` paths; on `User` paths it returns the canonical
location relative to the home directory, on `Relative` paths relative to
the stored base directory. -/
theorem rel_path_domain_spec (ev : Env) (fs : FileSys) (raw : RawPath)
    (bd : Option RawPath) (p : Path) (h : Path.make ev fs raw bd = Except.ok p) :
    ((∃ m, p.rel_path = Except.error (Err.valueError m)) ↔ p.ptype = PType.Absolute)
    ∧ (p.ptype = PType.User → p.rel_path = Except.ok (relpathComps p.path ev.home))
    ∧ (p.ptype = PType.Relative → ∃ bc, p.basedir = some bc
        ∧ p.rel_path = Except.ok (relpathComps p.path bc)) := by
  cases raw with
  | user cs =>
    simp only [Path.make, Except.ok.injEq] at h
    subst h
    refine ⟨?_, ?_, ?_⟩
    · simp [Path.rel_path]
    · intro _
      simp [Path.rel_path]
    · intro hr
      cases hr
  | abs cs =>
    simp only [Path.make, Except.ok.injEq] at h
    subst h
    refine ⟨?_, ?_, ?_⟩
    · constructor
      · intro _
        rfl
      · intro _
        exact ⟨"Calling rel_path() on an absolute path", rfl⟩
    · intro hu
      cases hu
    · intro hr
      cases hr
  | rel cs =>
    cases hcv : check_basedir_valid ev fs bd with
    | error e =>
      simp only [Path.make, hcv] at h
      exact Except.noConfusion h
    | ok u =>
      obtain ⟨b, rfl⟩ := check_basedir_valid_ok ev fs bd u hcv
      simp only [Path.make, hcv, Except.ok.injEq] at h
      subst h
      refine ⟨?_, ?_, ?_⟩
      · simp [Path.rel_path]
      · intro hu
        cases hu
      · intro _
        exact ⟨b, rfl, by simp [Path.rel_path]⟩

/-- Witness for C10 at the user path `Path("~/sk/x.ino")`. -/
theorem rel_path_domain_spec_witness :
    ((∃ m, pUserRel.rel_path = Except.error (Err.valueError m))
      ↔ pUserRel.ptype = PType.Absolute)
    ∧ (pUserRel.ptype = PType.User
      → pUserRel.rel_path = Except.ok (relpathComps pUserRel.path exEnv.home))
    ∧ (pUserRel.ptype = PType.Relative → ∃ bc, pUserRel.basedir = some bc
        ∧ pUserRel.rel_path = Except.ok (relpathComps pUserRel.path bc)) :=
  rel_path_domain_spec exEnv fsMerge (RawPath.user ["sk", "x.ino"]) none pUserRel rfl

theorem list_from_key_resolveRaws (ev : Env) (fs : FileSys) (parent : Comps) :
    ∀ (rs : List RawPath) (ps : List Path),
      list_from_key ev fs parent rs = Except.ok ps → ps = resolveRaws ev fs parent rs := by
  intro rs
  induction rs with
  | nil =>
    intro ps h
    simp only [list_from_key, Except.ok.injEq] at h
    subst h
    rfl
  | cons r rest ih =>
    intro ps h
    rw [list_from_key] at h
    cases hmk : Path.make ev fs r (some (RawPath.abs parent)) with
    | error e =>
      rw [hmk] at h
      exact Except.noConfusion h
    | ok q =>
      rw [hmk] at h
      cases hr : list_from_key ev fs parent rest with
      | error e =>
        rw [hr] at h
        exact Except.noConfusion h
      | ok qs =>
        rw [hr] at h
        simp only [Except.ok.injEq] at h
        subst h
        rw [ih qs hr]
        simp [resolveRaws, List.filterMap_cons, hmk, Except.toOption]

/-- The merge loop on one document: list fields append, scalar fields are
overwritten by the last declaration, unknown keys only extend the
warnings, `libs`/`qmake_dirs`/`qmake_exclude_dirs` resolve against the
given declaring directory. -/
theorem mergeDoc_spec (ev : Env) (fs : FileSys) (parent : Comps) :
    ∀ (es : List CEntry) (c c' : Config), mergeDoc ev fs parent c es = Except.ok c' →
      c'.main_paths = c.main_paths ∧ c'.paths = c.paths
      ∧ c'.fqbn = (declaredFqbn es).or c.fqbn
      ∧ c'.cflags = c.cflags ++ declaredCflags es
      ∧ some c'.debug_command = (declaredDebug es).or (some c.debug_command)
      ∧ some c'.baudrate = (declaredBaud es).or (some c.baudrate)
      ∧ c'.lib_paths = c.lib_paths ++ resolveRaws ev fs parent (declaredLibs es)
      ∧ c'.qmake_dirs = c.qmake_dirs ++ resolveRaws ev fs parent (declaredQmakeDirs es)
      ∧ c'.qmake_exclude_dirs
          = c.qmake_exclude_dirs ++ resolveRaws ev fs parent (declaredQmakeExcludeDirs es)
      ∧ c'.warnings = c.warnings ++ declaredUnknown es := by
  intro es
  induction es with
  | nil =>
    intro c c' h
    simp only [mergeDoc, Except.ok.injEq] at h
    subst h
    simp [declaredFqbn, declaredCflags, declaredDebug, declaredBaud, declaredLibs,
      declaredQmakeDirs, declaredQmakeExcludeDirs, declaredUnknown, resolveRaws]
  | cons e rest ih =>
    intro c c' h
    rw [mergeDoc] at h
    cases e with
    | fqbn v =>
      simp only [mergeEntry] at h
      obtain ⟨hm, hp, hf, hc, hd, hb, hl, hq, hx, hw⟩ := ih _ _ h
      exact ⟨hm, hp,
        by rw [hf]; simp [declaredFqbn, Option.or_assoc],
        by simpa [declaredCflags] using hc,
        by simpa [declaredDebug] using hd,
        by simpa [declaredBaud] using hb,
        by simpa [declaredLibs] using hl,
        by simpa [declaredQmakeDirs] using hq,
        by simpa [declaredQmakeExcludeDirs] using hx,
        by simpa [declaredUnknown] using hw⟩
    | cflags vs =>
      simp only [mergeEntry] at h
      obtain ⟨hm, hp, hf, hc, hd, hb, hl, hq, hx, hw⟩ := ih _ _ h
      exact ⟨hm, hp,
        by simpa [declaredFqbn] using hf,
        by rw [hc]; simp [declaredCflags],
        by simpa [declaredDebug] using hd,
        by simpa [declaredBaud] using hb,
        by simpa [declaredLibs] using hl,
        by simpa [declaredQmakeDirs] using hq,
        by simpa [declaredQmakeExcludeDirs] using hx,
        by simpa [declaredUnknown] using hw⟩
    | debugCommand v =>
      simp only [mergeEntry] at h
      obtain ⟨hm, hp, hf, hc, hd, hb, hl, hq, hx, hw⟩ := ih _ _ h
      exact ⟨hm, hp,
        by simpa [declaredFqbn] using hf,
        by simpa [declaredCflags] using hc,
        by rw [hd]; simp [declaredDebug, Option.or_assoc],
        by simpa [declaredBaud] using hb,
        by simpa [declaredLibs] using hl,
        by simpa [declaredQmakeDirs] using hq,
        by simpa [declaredQmakeExcludeDirs] using hx,
        by simpa [declaredUnknown] using hw⟩
    | baudrate v =>
      simp only [mergeEntry] at h
      obtain ⟨hm, hp, hf, hc, hd, hb, hl, hq, hx, hw⟩ := ih _ _ h
      exact ⟨hm, hp,
        by simpa [declaredFqbn] using hf,
        by simpa [declaredCflags] using hc,
        by simpa [declaredDebug] using hd,
        by rw [hb]; simp [declaredBaud, Option.or_assoc],
        by simpa [declaredLibs] using hl,
        by simpa [declaredQmakeDirs] using hq,
        by simpa [declaredQmakeExcludeDirs] using hx,
        by simpa [declaredUnknown] using hw⟩
    | libs vs =>
      cases hlk : list_from_key ev fs parent vs with
      | error e2 =>
        simp only [mergeEntry, hlk] at h
        exact Except.noConfusion h
      | ok ps =>
        simp only [mergeEntry, hlk] at h
        obtain ⟨hm, hp, hf, hc, hd, hb, hl, hq, hx, hw⟩ := ih _ _ h
        exact ⟨hm, hp,
          by simpa [declaredFqbn] using hf,
          by simpa [declaredCflags] using hc,
          by simpa [declaredDebug] using hd,
          by simpa [declaredBaud] using hb,
          by rw [hl, list_from_key_resolveRaws ev fs parent vs ps hlk];
             simp [declaredLibs, resolveRaws, List.filterMap_append],
          by simpa [declaredQmakeDirs] using hq,
          by simpa [declaredQmakeExcludeDirs] using hx,
          by simpa [declaredUnknown] using hw⟩
    | qmakeDirs vs =>
      cases hlk : list_from_key ev fs parent vs with
      | error e2 =>
        simp only [mergeEntry, hlk] at h
        exact Except.noConfusion h
      | ok ps =>
        simp only [mergeEntry, hlk] at h
        obtain ⟨hm, hp, hf, hc, hd, hb, hl, hq, hx, hw⟩ := ih _ _ h
        exact ⟨hm, hp,
          by simpa [declaredFqbn] using hf,
          by simpa [declaredCflags] using hc,
          by simpa [declaredDebug] using hd,
          by simpa [declaredBaud] using hb,
          by simpa [declaredLibs] using hl,
          by rw [hq, list_from_key_resolveRaws ev fs parent vs ps hlk];
             simp [declaredQmakeDirs, resolveRaws, List.filterMap_append],
          by simpa [declaredQmakeExcludeDirs] using hx,
          by simpa [declaredUnknown] using hw⟩
    | qmakeExcludeDirs vs =>
      cases hlk : list_from_key ev fs parent vs with
      | error e2 =>
        simp only [mergeEntry, hlk] at h
        exact Except.noConfusion h
      | ok ps =>
        simp only [mergeEntry, hlk] at h
        obtain ⟨hm, hp, hf, hc, hd, hb, hl, hq, hx, hw⟩ := ih _ _ h
        exact ⟨hm, hp,
          by simpa [declaredFqbn] using hf,
          by simpa [declaredCflags] using hc,
          by simpa [declaredDebug] using hd,
          by simpa [declaredBaud] using hb,
          by simpa [declaredLibs] using hl,
          by simpa [declaredQmakeDirs] using hq,
          by rw [hx, list_from_key_resolveRaws ev fs parent vs ps hlk];
             simp [declaredQmakeExcludeDirs, resolveRaws, List.filterMap_append],
          by simpa [declaredUnknown] using hw⟩
    | configs vs =>
      simp only [mergeEntry] at h
      obtain ⟨hm, hp, hf, hc, hd, hb, hl, hq, hx, hw⟩ := ih _ _ h
      exact ⟨hm, hp,
        by simpa [declaredFqbn] using hf,
        by simpa [declaredCflags] using hc,
        by simpa [declaredDebug] using hd,
        by simpa [declaredBaud] using hb,
        by simpa [declaredLibs] using hl,
        by simpa [declaredQmakeDirs] using hq,
        by simpa [declaredQmakeExcludeDirs] using hx,
        by simpa [declaredUnknown] using hw⟩
    | unknown k =>
      simp only [mergeEntry] at h
      obtain ⟨hm, hp, hf, hc, hd, hb, hl, hq, hx, hw⟩ := ih _ _ h
      exact ⟨hm, hp,
        by simpa [declaredFqbn] using hf,
        by simpa [declaredCflags] using hc,
        by simpa [declaredDebug] using hd,
        by simpa [declaredBaud] using hb,
        by simpa [declaredLibs] using hl,
        by simpa [declaredQmakeDirs] using hq,
        by simpa [declaredQmakeExcludeDirs] using hx,
        by rw [hw]; simp [declaredUnknown]⟩

/-- The merge loop over a whole layer sequence, relative to the collected
per-layer declarations. -/
theorem mergeAll_spec (ev : Env) (fs : FileSys) :
    ∀ (ps : List Path) (st : CState) (c c' : Config) (st' : CState),
      mergeAll ev fs st c ps = Except.ok (c', st') →
      c'.main_paths = c.main_paths ∧ c'.paths = c.paths
      ∧ c'.fqbn = (collectedFqbn fs ps).or c.fqbn
      ∧ c'.cflags = c.cflags ++ collectedCflags fs ps
      ∧ some c'.debug_command = (collectedDebug fs ps).or (some c.debug_command)
      ∧ some c'.baudrate = (collectedBaud fs ps).or (some c.baudrate)
      ∧ c'.lib_paths = c.lib_paths ++ collectedLibs ev fs ps
      ∧ c'.qmake_dirs = c.qmake_dirs ++ collectedQmakeDirs ev fs ps
      ∧ c'.qmake_exclude_dirs = c.qmake_exclude_dirs ++ collectedQmakeExcludeDirs ev fs ps
      ∧ c'.warnings = c.warnings ++ collectedWarnings fs ps := by
  intro ps
  induction ps with
  | nil =>
    intro st c c' st' h
    simp only [mergeAll, Except.ok.injEq, Prod.mk.injEq] at h
    obtain ⟨rfl, rfl⟩ := h
    simp [collectedFqbn, collectedCflags, collectedDebug, collectedBaud, collectedLibs,
      collectedQmakeDirs, collectedQmakeExcludeDirs, collectedWarnings]
  | cons p rest ih =>
    intro st c c' st' h
    rw [mergeAll] at h
    cases hy : yamlAt fs p.path with
    | none =>
      simp only [hy] at h
      exact Except.noConfusion h
    | some d =>
      simp only [hy] at h
      cases hmd : mergeDoc ev fs p.parent_dir.path c d.entries with
      | error e =>
        simp only [hmd] at h
        exact Except.noConfusion h
      | ok c1 =>
        simp only [hmd] at h
        obtain ⟨hm1, hp1, hf1, hc1, hd1, hb1, hl1, hq1, hx1, hw1⟩ :=
          mergeDoc_spec ev fs p.parent_dir.path d.entries c c1 hmd
        obtain ⟨hm, hp, hf, hc, hd, hb, hl, hq, hx, hw⟩ := ih _ _ _ _ h
        refine ⟨by rw [hm, hm1], by rw [hp, hp1], ?_, ?_, ?_, ?_, ?_, ?_, ?_, ?_⟩
        · rw [hf, hf1, collectedFqbn, hy, Option.or_assoc]
        · rw [hc, hc1, collectedCflags, hy, List.append_assoc]
        · rw [hd, hd1, collectedDebug, hy, Option.or_assoc]
        · rw [hb, hb1, collectedBaud, hy, Option.or_assoc]
        · rw [hl, hl1, collectedLibs, hy, List.append_assoc]
        · rw [hq, hq1, collectedQmakeDirs, hy, List.append_assoc]
        · rw [hx, hx1, collectedQmakeExcludeDirs, hy, List.append_assoc]
        · rw [hw, hw1, collectedWarnings, hy, List.append_assoc]

/-- C3: a successful composition merges the flattened layer sequence
(`c.paths`) by appending list fields in order, overwriting scalar fields
with the last declared value (falling back to the documented defaults),
collecting unknown keys as non-fatal warnings, and resolving the
path-valued list fields against each declaring file's own parent
directory. -/
theorem config_merge_spec (ev : Env) (fs : FileSys) (fuel : Nat) (st : CState)
    (mains : List Path) (c : Config) (st2 : CState)
    (h : Config.make ev fs fuel st mains = Except.ok (c, st2)) :
    c.main_paths = mains
    ∧ c.fqbn = collectedFqbn fs c.paths
    ∧ c.cflags = collectedCflags fs c.paths
    ∧ some c.debug_command = (collectedDebug fs c.paths).or (some "cat $$SERIALPORT")
    ∧ some c.baudrate = (collectedBaud fs c.paths).or (some "115200")
    ∧ c.lib_paths = collectedLibs ev fs c.paths
    ∧ c.qmake_dirs = collectedQmakeDirs ev fs c.paths
    ∧ c.qmake_exclude_dirs = collectedQmakeExcludeDirs ev fs c.paths
    ∧ c.warnings = collectedWarnings fs c.paths := by
  rw [Config.make] at h
  cases hfl : flattenPaths ev fs fuel st mains with
  | error es =>
    simp only [hfl] at h
    exact Except.noConfusion h
  | ok pr =>
    obtain ⟨flat, st1⟩ := pr
    simp only [hfl] at h
    cases hma : mergeAll ev fs st1 (initConfig mains flat) flat with
    | error es =>
      simp only [hma] at h
      exact Except.noConfusion h
    | ok pr2 =>
      obtain ⟨c0, st2'⟩ := pr2
      simp only [hma] at h
      obtain ⟨hm, hp, hf, hc, hd, hb, hl, hq, hx, hw⟩ :=
        mergeAll_spec ev fs flat st1 (initConfig mains flat) c0 st2' hma
      cases hf0 : c0.fqbn with
      | none =>
        simp only [hf0] at h
        exact Except.noConfusion h
      | some v =>
        simp only [hf0, Except.ok.injEq, Prod.mk.injEq] at h
        obtain ⟨rfl, rfl⟩ := h
        have hpaths : c0.paths = flat := by simpa [initConfig] using hp
        rw [← hpaths] at hf hc hd hb hl hq hx hw
        refine ⟨by simpa [initConfig] using hm, ?_, ?_, ?_, ?_, ?_, ?_, ?_, ?_⟩
        · rw [hf]
          simp [initConfig]
        · rw [hc]
          simp [initConfig]
        · rw [hd]
          simp [initConfig]
        · rw [hb]
          simp [initConfig]
        · rw [hl]
          simp [initConfig]
        · rw [hq]
          simp [initConfig]
        · rw [hx]
          simp [initConfig]
        · rw [hw]
          simp [initConfig]

/-- Witness for C3 at two concrete layers: `cflags=[a]` then `[b]` merge
to `[a, b]`; `baudrate "9600"` then `"57600"` merges to `"57600"`; the
unknown key becomes a warning; each `libs` entry resolves against its own
file's directory (`/cx` and `/cy` respectively). -/
theorem config_merge_spec_witness :
    (cWm.main_paths = [pXW, pYW]
      ∧ cWm.fqbn = collectedFqbn fsMerge cWm.paths
      ∧ cWm.cflags = collectedCflags fsMerge cWm.paths
      ∧ some cWm.debug_command = (collectedDebug fsMerge cWm.paths).or (some "cat $$SERIALPORT")
      ∧ some cWm.baudrate = (collectedBaud fsMerge cWm.paths).or (some "115200")
      ∧ cWm.lib_paths = collectedLibs exEnv fsMerge cWm.paths
      ∧ cWm.qmake_dirs = collectedQmakeDirs exEnv fsMerge cWm.paths
      ∧ cWm.qmake_exclude_dirs = collectedQmakeExcludeDirs exEnv fsMerge cWm.paths
      ∧ cWm.warnings = collectedWarnings fsMerge cWm.paths)
    ∧ cWm.cflags = ["a", "b"]
    ∧ cWm.baudrate = "57600"
    ∧ cWm.warnings = ["oops"]
    ∧ cWm.lib_paths = [⟨PType.Relative, some ["cx"], ["cx", "la"]⟩,
        ⟨PType.Relative, some ["cy"], ["cy", "lb"]⟩] :=
  ⟨config_merge_spec exEnv fsMerge 9 ⟨[], []⟩ [pXW, pYW] cWm stWM rfl, rfl, rfl, rfl, rfl⟩

theorem collectedFqbn_none_of (fs : FileSys) :
    ∀ ps : List Path,
      (∀ p ∈ ps, ∀ d, yamlAt fs p.path = some d → declaredFqbn d.entries = none) →
      collectedFqbn fs ps = none := by
  intro ps
  induction ps with
  | nil => intro _; rfl
  | cons p rest ih =>
    intro h
    have hrest : collectedFqbn fs rest = none :=
      ih (fun q hq d hd => h q (List.mem_cons_of_mem p hq) d hd)
    cases hy : yamlAt fs p.path with
    | none => simp only [collectedFqbn, hy, hrest]
    | some d =>
      simp only [collectedFqbn, hy, hrest, h p (List.mem_cons_self p rest) d hy]
      rfl

/-- C5: when every flattened layer leaves `fqbn` unset, composition fails
with the missing-required-field error; and whenever the composition step
of `main` fails, `main` performs no destructive action at all — no output
file is created, written or removed. -/
theorem missing_fqbn_aborts_before_output :
    (∀ (ev : Env) (fs : FileSys) (fuel : Nat) (st : CState) (mains flat : List Path)
      (st1 : CState) (c0 : Config) (st2 : CState),
      flattenPaths ev fs fuel st mains = Except.ok (flat, st1) →
      mergeAll ev fs st1 (initConfig mains flat) flat = Except.ok (c0, st2) →
      (∀ p ∈ flat, ∀ d, yamlAt fs p.path = some d → declaredFqbn d.entries = none) →
      Config.make ev fs fuel st mains = Except.error (Err.missingFqbn, st2))
    ∧ (∀ (ev : Env) (fs : FileSys) (fuel : Nat) (args : Args) (pre : Pre) (e : Err)
      (st' : CState),
      mainPre ev fs args = Except.ok pre →
      Config.make ev fs fuel ⟨[], []⟩ pre.config_paths = Except.error (e, st') →
      mainRun ev fs fuel args = ([], Except.error e)) := by
  constructor
  · intro ev fs fuel st mains flat st1 c0 st2 hfl hma hno
    have hf : c0.fqbn = none := by
      rw [(mergeAll_spec ev fs flat st1 (initConfig mains flat) c0 st2 hma).2.2.1,
        collectedFqbn_none_of fs flat hno]
      rfl
    rw [Config.make]
    simp only [hfl, hma, hf]
  · intro ev fs fuel args pre e st' hpre hcfg
    rw [mainRun]
    simp only [hpre, hcfg]

/-- Witness for C5: a single layer declaring only `cflags` composes to
`MissingRequiredField`, and the full run performs no effect. -/
theorem missing_fqbn_aborts_before_output_witness :
    Config.make exEnv fsNoFqbn 9 ⟨[], []⟩ [pc5]
      = Except.error (Err.missingFqbn, ⟨[], [["c.yaml"], ["c.yaml"]]⟩)
    ∧ mainRun exEnv fsNoFqbn 9 argsNoFqbn = ([], Except.error Err.missingFqbn) := by
  constructor
  · refine missing_fqbn_aborts_before_output.1 exEnv fsNoFqbn 9 ⟨[], []⟩ [pc5] [pc5]
      ⟨[], [["c.yaml"]]⟩
      ⟨[pc5], [pc5], none, ["-Da"], "cat $$SERIALPORT", "115200", [], [], [], []⟩
      ⟨[], [["c.yaml"], ["c.yaml"]]⟩ rfl rfl ?_
    intro p hp d hd
    rcases List.mem_singleton.mp hp with rfl
    have h0 : (some (⟨[CEntry.cflags ["-Da"]]⟩ : ConfigData) : Option ConfigData) = some d := hd
    cases h0
    rfl
  · exact missing_fqbn_aborts_before_output.2 exEnv fsNoFqbn 9 argsNoFqbn pre5
      Err.missingFqbn ⟨[], [["c.yaml"], ["c.yaml"]]⟩ rfl rfl

theorem getExtraStep_cycle (ev : Env) (fs : FileSys)
    (recur : CState → Path → Except (Err × CState) (List Path × CState))
    (st : CState) (path : Path)
    (hmem : (st.stack.any (fun q => q.path == path.path)) = true) :
    getExtraStep ev fs recur st path
      = Except.error (Err.circular path.path (st.stack.map (fun q => q.path)), st) := by
  unfold getExtraStep
  rw [hmem]
  rfl

theorem getExtraStep_enter (ev : Env) (fs : FileSys)
    (recur : CState → Path → Except (Err × CState) (List Path × CState))
    (stk : List Path) (prs : List Comps) (path : Path) (d : ConfigData)
    (hmem : (stk.any (fun q => q.path == path.path)) = false)
    (hy : yamlAt fs path.path = some d) :
    getExtraStep ev fs recur ⟨stk, prs⟩ path
      = match getExtraList ev fs recur path
          ⟨stk ++ [path], prs ++ [path.path]⟩ d.configsList with
        | Except.error es => Except.error es
        | Except.ok (ret, st3) => Except.ok (ret, ⟨st3.stack.dropLast, st3.parsed⟩) := by
  unfold getExtraStep
  rw [show (CState.mk stk prs).stack = stk from rfl] at *
  rw [hmem, hy]
  rfl

/-- C2, amended: whenever configuration `A` includes `B` and `B` includes
`A` back (two distinct canonical locations), expansion fails with the
circular-inclusion error carrying the full in-progress stack `[A, B]`,
whole-composition fails the same way, and at that point each of the two
files has been parsed exactly once — no content was parsed a second time
before the failure. -/
theorem circular_inclusion_two_cycle (ev : Env) (fs : FileSys) (A B A' : Path)
    (rawB rawA : RawPath) (dA dB : ConfigData) (fuel : Nat)
    (hA : yamlAt fs A.path = some dA) (hAc : dA.configsList = [rawB])
    (hmkB : Path.make ev fs rawB (some (RawPath.abs A.parent_dir.path)) = Except.ok B)
    (hB : yamlAt fs B.path = some dB) (hBc : dB.configsList = [rawA])
    (hmkA : Path.make ev fs rawA (some (RawPath.abs B.parent_dir.path)) = Except.ok A')
    (hA' : A'.path = A.path) (hne : A.path ≠ B.path) :
    getExtra ev fs (fuel + 3) ⟨[], []⟩ A
      = Except.error (Err.circular A.path [A.path, B.path], ⟨[A, B], [A.path, B.path]⟩)
    ∧ Config.make ev fs (fuel + 3) ⟨[], []⟩ [A]
      = Except.error (Err.circular A.path [A.path, B.path], ⟨[A, B], [A.path, B.path]⟩)
    ∧ List.Nodup [A.path, B.path] := by
  have hcyc : getExtra ev fs (fuel + 1) ⟨[A, B], [A.path, B.path]⟩ A'
      = Except.error (Err.circular A.path [A.path, B.path],
          ⟨[A, B], [A.path, B.path]⟩) := by
    show getExtraStep ev fs (getExtra ev fs fuel) ⟨[A, B], [A.path, B.path]⟩ A' = _
    rw [getExtraStep_cycle ev fs _ _ _ (by simp [List.any_cons, hA'])]
    rw [hA']
    rfl
  have hlistB : getExtraList ev fs (getExtra ev fs (fuel + 1)) B
      ⟨[A, B], [A.path, B.path]⟩ [rawA]
      = Except.error (Err.circular A.path [A.path, B.path],
          ⟨[A, B], [A.path, B.path]⟩) := by
    rw [getExtraList]
    simp only [hmkA]
    rw [hcyc]
  have hB2 : getExtra ev fs (fuel + 2) ⟨[A], [A.path]⟩ B
      = Except.error (Err.circular A.path [A.path, B.path],
          ⟨[A, B], [A.path, B.path]⟩) := by
    show getExtraStep ev fs (getExtra ev fs (fuel + 1)) ⟨[A], [A.path]⟩ B = _
    rw [getExtraStep_enter ev fs _ [A] [A.path] B dB
      (by simp only [List.any_cons, List.any_nil, Bool.or_false]
          exact beq_eq_false_iff_ne.mpr hne) hB]
    simp only [List.singleton_append]
    rw [hBc, hlistB]
  have hlistA : getExtraList ev fs (getExtra ev fs (fuel + 2)) A ⟨[A], [A.path]⟩ [rawB]
      = Except.error (Err.circular A.path [A.path, B.path],
          ⟨[A, B], [A.path, B.path]⟩) := by
    rw [getExtraList]
    simp only [hmkB]
    rw [hB2]
  have htop : getExtra ev fs (fuel + 3) ⟨[], []⟩ A
      = Except.error (Err.circular A.path [A.path, B.path],
          ⟨[A, B], [A.path, B.path]⟩) := by
    show getExtraStep ev fs (getExtra ev fs (fuel + 2)) ⟨[], []⟩ A = _
    rw [getExtraStep_enter ev fs _ [] [] A dA (by simp [List.any_nil]) hA]
    simp only [List.nil_append]
    rw [hAc, hlistA]
  refine ⟨htop, ?_, by simp [hne]⟩
  rw [Config.make, flattenPaths, htop]

/-- C2, counterexample: in the diamond-then-cycle graph (`a → b,c`;
`b → d`; `c → d,e`; `e → c`) the traversal re-enters `c` and fails with
the circular-inclusion error — but only after `/d`'s content has been
parsed a second time (parse trace `a, b, d, c, d, e`), so the failure is
not always before any file's content is parsed again. -/
theorem circular_inclusion_claim_false :
    getExtra exEnv fsDiamond 9 ⟨[], []⟩ paD
      = Except.error (Err.circular ["c"] [["a"], ["c"], ["e"]],
          ⟨[paD, pcD, peD], [["a"], ["b"], ["d"], ["c"], ["d"], ["e"]]⟩)
    ∧ ¬ List.Nodup [(["a"] : Comps), ["b"], ["d"], ["c"], ["d"], ["e"]] :=
  ⟨rfl, by decide⟩

/-- Witness for C2's amended theorem on the two-file cycle `x ↔ y`. -/
theorem circular_inclusion_two_cycle_witness :
    getExtra exEnv fsTwoCycle 9 ⟨[], []⟩ pxC
      = Except.error (Err.circular ["x"] [["x"], ["y"]], ⟨[pxC, pyC], [["x"], ["y"]]⟩)
    ∧ Config.make exEnv fsTwoCycle 9 ⟨[], []⟩ [pxC]
      = Except.error (Err.circular ["x"] [["x"], ["y"]], ⟨[pxC, pyC], [["x"], ["y"]]⟩)
    ∧ List.Nodup [(["x"] : Comps), ["y"]] :=
  circular_inclusion_two_cycle exEnv fsTwoCycle pxC pyC pxC
    (RawPath.abs ["y"]) (RawPath.abs ["x"])
    ⟨[CEntry.configs [RawPath.abs ["y"]]]⟩ ⟨[CEntry.configs [RawPath.abs ["x"]]]⟩ 6
    rfl rfl rfl rfl rfl rfl rfl (by decide)

/-- C8: the inclusion-traversal stack is the class attribute
`Config.extra_config_stack`, so a failed composition leaves its entries
behind (the aborted frames never pop); a later composition in the same
process therefore starts from the residual stack `[x, y]` and aborts
immediately — its resulting parse trace equals the incoming one, so
nothing is parsed, whereas the first (fresh-state) composition parsed
both files before failing. -/
theorem extra_config_stack_residue :
    Config.make exEnv fsTwoCycle 9 ⟨[], []⟩ [pxC]
      = Except.error (Err.circular ["x"] [["x"], ["y"]], stResidue)
    ∧ stResidue.stack ≠ []
    ∧ Config.make exEnv fsTwoCycle 9 stResidue [pxC]
      = Except.error (Err.circular ["x"] [["x"], ["y"]], stResidue)
    ∧ stResidue.parsed = [["x"], ["y"]] :=
  ⟨rfl, by decide, rfl, rfl⟩

/-- C4, counterexample: `/gen` is a non-empty plain file whose *first*
line is not the generated-file marker (its second line is); the claim
requires the `UnsafeOverwrite` failure, but the code scans every line for
the marker and deletes the file. -/
theorem unsafe_overwrite_claim_false :
    fileLines fsMarker ["gen"]
      = some ["junk first line\n", "# Generated by arduino-genmakefile\n"]
    ∧ strStartsWith "junk first line\n" generated_marker = false
    ∧ Path.safely_remove_or_exit exEnv fsMarker pGen
      = Except.ok ([Effect.remove ["gen"]], ⟨[], [[]], []⟩) :=
  ⟨rfl, rfl, rfl⟩

/-- C4, amended: `safely_remove_or_exit` is a no-op when the target does
not exist; it fails — leaving the filesystem untouched — when the target
is not a plain file, or when it is non-empty and *no line of it* starts
with the exact generated-file marker; otherwise it deletes the target. -/
theorem safe_remove_spec (ev : Env) (fs : FileSys) (p : Path) :
    (existsP ev fs p.path = false → Path.safely_remove_or_exit ev fs p = Except.ok ([], fs))
    ∧ (existsP ev fs p.path = true → isfileP ev fs p.path = false →
        Path.safely_remove_or_exit ev fs p = Except.error (Err.unsafeNotAFile p.path))
    ∧ (∀ ls, isfileP ev fs p.path = true
        → fileLines fs (realpath fs ev.fuel p.path) = some ls
        → ls ≠ []
        → (∀ l ∈ ls, strStartsWith l generated_marker = false)
        → Path.safely_remove_or_exit ev fs p = Except.error (Err.unsafeNotGenerated p.path))
    ∧ (∀ ls, isfileP ev fs p.path = true
        → fileLines fs (realpath fs ev.fuel p.path) = some ls
        → ((∃ l ∈ ls, strStartsWith l generated_marker = true) ∨ ls = [])
        → Path.safely_remove_or_exit ev fs p
            = Except.ok ([Effect.remove p.path], fs.removeFile (realpath fs ev.fuel p.path))) := by
  refine ⟨?_, ?_, ?_, ?_⟩
  · intro hex
    rw [Path.safely_remove_or_exit]
    simp [hex]
  · intro hex hf
    rw [Path.safely_remove_or_exit]
    simp [hex, hf]
  · intro ls hf hlines hnonempty hnomark
    have hex : existsP ev fs p.path = true := by simp [existsP, hf]
    have hgen : Path.generated_by_us ev fs p = false := by
      rw [Path.generated_by_us, hlines]
      simp only [Option.getD_some, List.any_eq_false]
      intro l hl
      simp [hnomark l hl]
    have hemp : Path.isemptyfile ev fs p = false := by
      rw [Path.isemptyfile, hlines]
      simp [List.isEmpty_iff, hnonempty]
    rw [Path.safely_remove_or_exit]
    simp [hex, hf, hgen, hemp]
  · intro ls hf hlines hcond
    have hex : existsP ev fs p.path = true := by simp [existsP, hf]
    rw [Path.safely_remove_or_exit]
    rcases hcond with ⟨l, hl, hmark⟩ | hempty
    · have hgen : Path.generated_by_us ev fs p = true := by
        rw [Path.generated_by_us, hlines]
        simp only [Option.getD_some, List.any_eq_true]
        exact ⟨l, hl, hmark⟩
      simp [hex, hf, hgen]
    · have hemp : Path.isemptyfile ev fs p = true := by
        rw [Path.isemptyfile, hlines, hempty]
        simp [hf]
      simp [hex, hf, hemp]

/-- Witness for C4's amended theorem: a non-empty file containing the
marker on no line is refused. -/
theorem safe_remove_spec_witness :
    Path.safely_remove_or_exit exEnv fsNoMarker pUser
      = Except.error (Err.unsafeNotGenerated ["user.txt"]) :=
  (safe_remove_spec exEnv fsNoMarker pUser).2.2.1 ["precious data\n"] rfl rfl
    (by decide) (by decide)

/-- C6: the exclusion filter is inoperative. `qmake_exclude_dirs`
contains `/i/sub`, yet scanning `/i` returns `/i/sub/f.cpp`:
`is_rawpath_excluded` compares the resolved path string against
`str(excluded_dir)` — the default object representation of the `Path`
object, which no filesystem path string can start with. -/
theorem scan_exclusion_inoperative :
    is_rawpath_excluded (compsToString ["i", "sub", "f.cpp"]) qScan.excluded_dirs = false
    ∧ Qmake.get_files exEnv fsScan qScan [".c", ".cpp"]
      = Except.ok [⟨PType.Absolute, none, ["i", "g.cpp"]⟩,
          ⟨PType.Absolute, none, ["i", "sub", "f.cpp"]⟩] :=
  ⟨rfl, rfl⟩

/-- C7, counterexample: the pre-existing generated `/Makefile` is removed
*before* the configured library directory `/nolib` is found missing — a
destructive action precedes the completion of the required-directory
checks, and the run ends with the old output destroyed and no new one. -/
theorem checks_before_destruction_claim_false :
    mainRun exEnv fsStale 9 argsStale
      = ([Effect.remove ["Makefile"]], Except.error (Err.requiredMissing ["nolib"])) :=
  rfl

/-- C7, amended: every run that performs any destructive action (its
effect trace is non-empty) has already passed the whole validation
prefix — the required-file existence and type checks of `main` — and the
composer's field-completeness check; only the library-directory
existence check can still fail after a removal. -/
theorem effects_follow_validation (ev : Env) (fs : FileSys) (fuel : Nat) (args : Args)
    (tr : List Effect) (res : Except Err FileSys)
    (h : mainRun ev fs fuel args = (tr, res)) (hne : tr ≠ []) :
    ∃ pre, mainPre ev fs args = Except.ok pre
      ∧ ∃ cst, Config.make ev fs fuel ⟨[], []⟩ pre.config_paths = Except.ok cst := by
  rw [mainRun] at h
  cases hpre : mainPre ev fs args with
  | error e =>
    simp only [hpre] at h
    cases h
    exact absurd rfl hne
  | ok pre =>
    simp only [hpre] at h
    cases hcfg : Config.make ev fs fuel ⟨[], []⟩ pre.config_paths with
    | error es =>
      obtain ⟨e, st'⟩ := es
      simp only [hcfg] at h
      cases h
      exact absurd rfl hne
    | ok cst =>
      exact ⟨pre, rfl, cst, hcfg⟩

/-- Witness for C7's amended theorem at the stale-Makefile scenario. -/
theorem effects_follow_validation_witness :
    ∃ pre, mainPre exEnv fsStale argsStale = Except.ok pre
      ∧ ∃ cst, Config.make exEnv fsStale 9 ⟨[], []⟩ pre.config_paths = Except.ok cst :=
  effects_follow_validation exEnv fsStale 9 argsStale
    [Effect.remove ["Makefile"]] (Except.error (Err.requiredMissing ["nolib"])) rfl
    (by decide)

/-- C9, counterexample: the helper run script's first line is the shebang
`#!/bin/sh`, not the generated-file marker (the marker is its second
line). -/
theorem generated_marker_claim_false :
    Qmake.create_runscript_lines exEnv fsRun qRun
      = Except.ok (["#!/bin/sh\n"] ++ header_strings exEnv ++ ["make -f ../m/Makefile run\n"])
    ∧ (["#!/bin/sh\n"] ++ header_strings exEnv
        ++ ["make -f ../m/Makefile run\n"]).head? ≠ some generated_marker :=
  ⟨rfl, by decide⟩

/-- C9, amended: the primary descriptor and the companion/auxiliary
descriptors all start with the exact generated-file marker line; the
helper script starts with the shebang line and carries the marker as its
second line. -/
theorem generated_marker_heads :
    (∀ (ev : Env) (fs : FileSys) (m : MakefileG) (tl out : List String),
      Makefile.out_lines ev fs m tl = Except.ok out → out.head? = some generated_marker)
    ∧ (∀ (ev : Env) (fs : FileSys) (q : QmakeG) (tl : List String)
        (o hd sr ic : List Path) (df : List String) (ia ir iu : Bool) (out : List String),
      Qmake.out_lines ev fs q tl o hd sr ic df ia ir iu = Except.ok out →
      out.head? = some generated_marker)
    ∧ (∀ (ev : Env) (fs : FileSys) (q : QmakeG) (out : List String),
      Qmake.create_runscript_lines ev fs q = Except.ok out →
      out.head? = some "#!/bin/sh\n" ∧ out.get? 1 = some generated_marker) := by
  refine ⟨?_, ?_, ?_⟩
  · intro ev fs m tl out h
    rw [Makefile.out_lines] at h
    cases hb : Makefile.body ev fs m tl with
    | error e =>
      simp only [hb] at h
      exact Except.noConfusion h
    | ok body =>
      simp only [hb, Except.ok.injEq] at h
      subst h
      simp [header_strings]
  · intro ev fs q tl o hd sr ic df ia ir iu out h
    rw [Qmake.out_lines] at h
    cases hb : Qmake.body ev fs q o hd sr ic df ia ir iu tl with
    | error e =>
      simp only [hb] at h
      exact Except.noConfusion h
    | ok body =>
      simp only [hb, Except.ok.injEq] at h
      subst h
      simp [header_strings]
  · intro ev fs q out h
    rw [Qmake.create_runscript_lines] at h
    cases ht : Path.to_relative ev fs q.makefile_path
        (RawPath.abs q.script_path.parent_dir.path) with
    | error e =>
      simp only [ht] at h
      exact Except.noConfusion h
    | ok t =>
      simp only [ht] at h
      cases hr : t.rel_path with
      | error e =>
        simp only [hr] at h
        exact Except.noConfusion h
      | ok r =>
        simp only [hr, Except.ok.injEq] at h
        subst h
        constructor
        · simp [header_strings]
        · simp [header_strings]

/-- Witness for C9's amended theorem: a primary-descriptor line list, a
companion line list, and the run script of the C9 scenario. -/
theorem generated_marker_heads_witness :
    (header_strings exEnv ++ ["build:\n"]).head? = some generated_marker
    ∧ (header_strings exEnv ++ ["X = 1\n"]).head? = some generated_marker
    ∧ ((["#!/bin/sh\n"] ++ header_strings exEnv
          ++ ["make -f ../m/Makefile run\n"]).head? = some "#!/bin/sh\n"
      ∧ (["#!/bin/sh\n"] ++ header_strings exEnv
          ++ ["make -f ../m/Makefile run\n"]).get? 1 = some generated_marker) :=
  ⟨generated_marker_heads.1 exEnv fsRun mRun ["build:\n"]
      (header_strings exEnv ++ ["build:\n"]) rfl,
   generated_marker_heads.2.1 exEnv fsRun qRun ["X = 1\n"] [] [] [] [] [] false true false
      (header_strings exEnv ++ ["X = 1\n"]) rfl,
   generated_marker_heads.2.2 exEnv fsRun qRun
      (["#!/bin/sh\n"] ++ header_strings exEnv ++ ["make -f ../m/Makefile run\n"]) rfl⟩

end AGen
